import Mathlib

/-!
# voxgraph: `VoxgraphSubmap` caches, registration points and overlap test

A shallow embedding of `voxgraph/src/frontend/submap_collection/voxgraph_submap.cpp`,
of the `BoundingBox` declaration it uses and of `AngleLocalParameterization`.

Conventions of the embedding

* Finite floating-point values (`float`, `double`, `voxblox::FloatingPoint`) are
  exact rationals.  The comparisons of the source (`>`, `<`, `std::abs`) are exact
  on floating-point values, so they are the comparisons of `ℚ`.  Rounding of the
  arithmetic and NaN are outside the embedding.
* A coefficient of a `BoundingBox` corner can also be `INFINITY` or `-INFINITY`:
  it is a `Scalar`, the rationals with `⊤` (`+∞`) and `⊥` (`−∞`) added.
* The voxblox / cblox / minkindr objects the code consumes are represented by the
  accessors the code calls on them, under the names the code uses.
* A failed glog `CHECK` (and the dereference of a null block pointer) aborts the
  process: a method that can abort returns `Option`, and `none` is the abort.
* `mutable` members written by `const` accessors are made explicit: such an
  accessor returns its result together with the submap after the call.
-/

namespace voxgraph

/-! ## Scalars and vectors -/

/-- A `voxblox::FloatingPoint` that may also be `INFINITY` (`⊤`) or `-INFINITY` (`⊥`). -/
abbrev Scalar := WithBot (WithTop ℚ)

/-- The value `INFINITY`. -/
def Scalar.posInf : Scalar := ((⊤ : WithTop ℚ) : WithBot (WithTop ℚ))

/-- The value `-INFINITY`. -/
def Scalar.negInf : Scalar := (⊥ : WithBot (WithTop ℚ))

/-- Embedding of a finite floating-point value among the box coefficients. -/
def Scalar.ofRat (q : ℚ) : Scalar := ((q : WithTop ℚ) : WithBot (WithTop ℚ))

/-- An `Eigen` vector with three coefficients. -/
structure Vec3 (α : Type) where
  x : α
  y : α
  z : α
deriving DecidableEq

/-- Coefficient access `v[i]`, `i ∈ {0,1,2}`. -/
def Vec3.coeff {α : Type} (v : Vec3 α) (i : Fin 3) : α :=
  match i with
  | 0 => v.x
  | 1 => v.y
  | 2 => v.z

/-- A finite `voxblox::Point`, as produced by the voxblox coordinate functions. -/
abbrev Point := Vec3 ℚ

/-- A `voxblox::BlockIndex`. -/
abbrev BlockIndex := Vec3 ℤ

/-- Coefficient-wise difference of two points. -/
def Point.sub (a b : Point) : Point := ⟨a.x - b.x, a.y - b.y, a.z - b.z⟩

/-- Coefficient-wise sum of two points. -/
def Point.add (a b : Point) : Point := ⟨a.x + b.x, a.y + b.y, a.z + b.z⟩

/-- The vector `c * voxblox::Point::Ones()`. -/
def Point.timesOnes (c : ℚ) : Point := ⟨c, c, c⟩

/-- Method `cwiseMin` of a box corner, with a finite point as argument. -/
def cwiseMin (m : Vec3 Scalar) (p : Point) : Vec3 Scalar :=
  ⟨min m.x (Scalar.ofRat p.x), min m.y (Scalar.ofRat p.y), min m.z (Scalar.ofRat p.z)⟩

/-- Method `cwiseMax` of a box corner, with a finite point as argument. -/
def cwiseMax (m : Vec3 Scalar) (p : Point) : Vec3 Scalar :=
  ⟨max m.x (Scalar.ofRat p.x), max m.y (Scalar.ofRat p.y), max m.z (Scalar.ofRat p.z)⟩

/-! ## `BoundingBox` (bounding_box.h) -/

/-- Class `BoundingBox`: `min = {INFINITY, ...}` and `max = {-INFINITY, ...}` are the
member initialisers of the declaration. -/
structure BoundingBox where
  min : Vec3 Scalar := ⟨Scalar.posInf, Scalar.posInf, Scalar.posInf⟩
  max : Vec3 Scalar := ⟨Scalar.negInf, Scalar.negInf, Scalar.negInf⟩
deriving DecidableEq

/-- Modelled from the spec: `BoundingBox::reset()` is called by the source but is not
declared in the header at hand; the spec says it puts the box "back to the unset
sentinel", the state of a default-constructed box. -/
def BoundingBox.reset (_b : BoundingBox) : BoundingBox := {}

/-- The test `(box.min.array() > box.max.array()).any()` that guards both scans. -/
def BoundingBox.anyMinAboveMax (b : BoundingBox) : Prop :=
  b.min.x > b.max.x ∨ b.min.y > b.max.y ∨ b.min.z > b.max.z

instance (b : BoundingBox) : Decidable b.anyMinAboveMax := by
  unfold BoundingBox.anyMinAboveMax
  infer_instance

/-- Validity of a box as the spec words it: `min ≤ max` on every axis. -/
def BoundingBox.valid (b : BoundingBox) : Prop :=
  ∀ i : Fin 3, b.min.coeff i ≤ b.max.coeff i

instance (b : BoundingBox) : Decidable b.valid := by
  unfold BoundingBox.valid
  infer_instance

/-! ## Volumetric data (voxblox) seen through the accessors the code calls -/

/-- A `voxblox::TsdfVoxel`: the two members the code reads. -/
structure TsdfVoxel where
  distance : ℚ
  weight : ℚ
deriving DecidableEq

/-- A `voxblox::EsdfVoxel`: the member the code reads. -/
structure EsdfVoxel where
  distance : ℚ
deriving DecidableEq

/-- A `voxblox::Block<TsdfVoxel>`. -/
structure TsdfBlock where
  getVoxelByLinearIndex : Nat → TsdfVoxel
  computeCoordinatesFromLinearIndex : Nat → Point

/-- A `voxblox::Block<EsdfVoxel>`. -/
structure EsdfBlock where
  isValidLinearIndex : Nat → Bool
  getVoxelByLinearIndex : Nat → EsdfVoxel

/-- A `voxblox::Layer<TsdfVoxel>` (through `tsdf_map_`). `getAllAllocatedBlocks` is the
list the method of that name writes to its output argument. -/
structure TsdfLayer where
  voxel_size : ℚ
  voxels_per_side : Nat
  block_size : ℚ
  getAllAllocatedBlocks : List BlockIndex
  getBlockByIndex : BlockIndex → TsdfBlock

/-- A `voxblox::Layer<EsdfVoxel>` (through `esdf_map_`). `getBlockPtrByIndex` returns a
null pointer (`none`) for a block that is not allocated. -/
structure EsdfLayer where
  getBlockPtrByIndex : BlockIndex → Option EsdfBlock

/-- The `size_t` product `vps * vps * vps` (64-bit unsigned arithmetic). -/
def num_voxels_per_block (tsdf_layer : TsdfLayer) : Nat :=
  (tsdf_layer.voxels_per_side * tsdf_layer.voxels_per_side * tsdf_layer.voxels_per_side)
    % 2 ^ 64

/-! ## Registration points and their sampler -/

/-- Members of `Config::RegistrationFilter` read by the code. -/
structure RegistrationFilter where
  min_voxel_weight : ℚ
  max_voxel_distance : ℚ
  use_esdf_distance : Bool
deriving DecidableEq

/-- Modelled from the spec: struct `RegistrationPoint` of `voxgraph_submap.h` (not at
hand): "3-D position, scalar signed distance at that position, scalar confidence
weight", in the order of the brace initialisers of the source. -/
structure RegistrationPoint where
  position : Point
  distance : ℚ
  weight : ℚ
deriving DecidableEq

/-- Modelled from the spec: enum `RegistrationPointType` of `voxgraph_submap.h` (not at
hand), with the two enumerators of the `switch` in `getRegistrationPoints`. -/
inductive RegistrationPointType where
  | kVoxels
  | kIsosurfacePoints
deriving DecidableEq

/-- Modelled from the spec: class template `WeightedSampler` of `weighted_sampler.h`
(not at hand): a collection of items, each stored with its sampling weight, that
supports insertion, size query and clearing. The random draw is not used by the code
embedded here. -/
structure WeightedSampler (α : Type) where
  items : List (α × ℚ)
deriving DecidableEq

/-- Modelled from the spec: "`addItem(item, weight)`: inserts `item` with sampling weight
`weight`"; weights that are not positive are tolerated. -/
def WeightedSampler.addItem {α : Type} (s : WeightedSampler α) (item : α) (weight : ℚ) :
    WeightedSampler α :=
  ⟨s.items ++ [(item, weight)]⟩

/-- Modelled from the spec: "`clear()`: empties the collection". -/
def WeightedSampler.clear {α : Type} (_s : WeightedSampler α) : WeightedSampler α :=
  ⟨[]⟩

/-- Modelled from the spec: `size()`, the number of items held. -/
def WeightedSampler.size {α : Type} (s : WeightedSampler α) : Nat :=
  s.items.length

/-! ## The submap -/

/-- Timestamps (`ros::Time`), totally ordered; `ros::Time(0)` is `0`. -/
abbrev Time := Nat

/-- State of a `VoxgraphSubmap`: the members the embedded methods read or write.
`G` is the type of `voxblox::Transformation`. -/
structure VoxgraphSubmap (G : Type) where
  pose : G
  tsdf_layer : TsdfLayer
  esdf_layer : EsdfLayer
  registration_filter : RegistrationFilter
  pose_history_ : List (Time × G)
  finished_ : Bool
  relevant_voxels_ : WeightedSampler RegistrationPoint
  isosurface_vertices_ : WeightedSampler RegistrationPoint
  surface_obb_ : BoundingBox
  map_obb_ : BoundingBox

/-- Functions of voxblox, cblox and of `bounding_box.cpp` that the code calls and whose
bodies are not part of the embedded file. They are parameters of the embedding. -/
structure External (G : Type) where
  /-- Method `generateEsdf()` of `cblox::TsdfEsdfSubmap`: updates the ESDF from the TSDF. -/
  generateEsdf : TsdfLayer → EsdfLayer → EsdfLayer
  /-- Function `voxblox::transformLayer(layer_in, T_out_in, layer_out)`: the layer held
  by `layer_out` afterwards. -/
  transformLayer : TsdfLayer → G → TsdfLayer → TsdfLayer
  /-- The vertices of the connected mesh built by `MeshIntegrator::generateMesh` and
  `MeshLayer::getConnectedMesh` from a TSDF layer and `min_weight`. -/
  connectedMeshVertices : TsdfLayer → ℚ → List Point
  /-- Method `Interpolator::getVoxel(pos, &voxel, true)`: `none` when it returns false. -/
  interpolatorGetVoxel : TsdfLayer → Point → Option TsdfVoxel
  /-- Function `voxblox::getCenterPointFromGridIndex(index, grid_size)`. -/
  getCenterPointFromGridIndex : BlockIndex → ℚ → Point
  /-- Function `BoundingBox::getAabbFromObbAndPose(obb, pose)`. -/
  getAabbFromObbAndPose : BoundingBox → G → BoundingBox

variable {G : Type}

/-! ### `findRelevantVoxelIndices` (lines 110–167) -/

/-- Body of the inner loop (lines 140–164) for one `linear_index`: the sampler
afterwards, or `none` when `esdf_block` is null or the `CHECK` of line 152 fails. -/
def relevantVoxelBody (filter : RegistrationFilter) (tsdf_block : TsdfBlock)
    (esdf_block : Option EsdfBlock) (relevant_voxels : WeightedSampler RegistrationPoint)
    (linear_index : Nat) : Option (WeightedSampler RegistrationPoint) :=
  let tsdf_voxel := tsdf_block.getVoxelByLinearIndex linear_index
  if tsdf_voxel.weight > filter.min_voxel_weight ∧
      |tsdf_voxel.distance| < filter.max_voxel_distance then
    let voxel_coordinates := tsdf_block.computeCoordinatesFromLinearIndex linear_index
    let distance : Option ℚ :=
      if filter.use_esdf_distance then
        match esdf_block with
        | none => none
        | some block =>
          if block.isValidLinearIndex linear_index then
            some (block.getVoxelByLinearIndex linear_index).distance
          else none
      else some tsdf_voxel.distance
    match distance with
    | none => none
    | some d =>
      some (relevant_voxels.addItem ⟨voxel_coordinates, d, tsdf_voxel.weight⟩
        tsdf_voxel.weight)
  else some relevant_voxels

/-- Body of the outer loop (lines 130–165) for one `block_index`. -/
def relevantBlockBody (s : VoxgraphSubmap G)
    (relevant_voxels : WeightedSampler RegistrationPoint) (block_index : BlockIndex) :
    Option (WeightedSampler RegistrationPoint) :=
  let tsdf_block := s.tsdf_layer.getBlockByIndex block_index
  let esdf_block : Option EsdfBlock :=
    if s.registration_filter.use_esdf_distance then
      s.esdf_layer.getBlockPtrByIndex block_index
    else none
  (List.range (num_voxels_per_block s.tsdf_layer)).foldlM
    (relevantVoxelBody s.registration_filter tsdf_block esdf_block) relevant_voxels

/-- Method `VoxgraphSubmap::findRelevantVoxelIndices`. -/
def findRelevantVoxelIndices (s : VoxgraphSubmap G) : Option (VoxgraphSubmap G) :=
  let cleared := s.relevant_voxels_.clear
  match s.tsdf_layer.getAllAllocatedBlocks.foldlM (relevantBlockBody s) cleared with
  | none => none
  | some relevant_voxels => some { s with relevant_voxels_ := relevant_voxels }

/-! ### `findIsosurfaceVertices` (lines 169–204) -/

/-- Body of the loop over the mesh vertices (lines 193–202): the sampler afterwards,
or `none` when `CHECK_LE(voxel.distance, 1e-2 * voxel_size)` fails. -/
def isosurfaceVertexBody (ext : External G) (tsdf_layer : TsdfLayer)
    (isosurface_vertices : WeightedSampler RegistrationPoint)
    (mesh_vertex_coordinates : Point) : Option (WeightedSampler RegistrationPoint) :=
  match ext.interpolatorGetVoxel tsdf_layer mesh_vertex_coordinates with
  | some voxel =>
    if voxel.distance ≤ 1 / 100 * tsdf_layer.voxel_size then
      some (isosurface_vertices.addItem
        ⟨mesh_vertex_coordinates, voxel.distance, voxel.weight⟩ voxel.weight)
    else none
  | none => some isosurface_vertices

/-- Method `VoxgraphSubmap::findIsosurfaceVertices`. -/
def findIsosurfaceVertices (ext : External G) (s : VoxgraphSubmap G) :
    Option (VoxgraphSubmap G) :=
  let cleared := s.isosurface_vertices_.clear
  let vertices := ext.connectedMeshVertices s.tsdf_layer s.registration_filter.min_voxel_weight
  match vertices.foldlM (isosurfaceVertexBody ext s.tsdf_layer) cleared with
  | none => none
  | some isosurface_vertices => some { s with isosurface_vertices_ := isosurface_vertices }

/-! ### `getSubmapFrameSurfaceObb` (lines 221–265) -/

/-- Body of the inner loop (lines 248–260) for one `linear_index`. -/
def surfaceObbVoxelBody (filter : RegistrationFilter) (half_voxel_size : Point)
    (block : TsdfBlock) (surface_obb : BoundingBox) (linear_index : Nat) : BoundingBox :=
  let voxel := block.getVoxelByLinearIndex linear_index
  if voxel.weight > filter.min_voxel_weight ∧
      |voxel.distance| < filter.max_voxel_distance then
    let voxel_coordinates := block.computeCoordinatesFromLinearIndex linear_index
    { min := cwiseMin surface_obb.min (voxel_coordinates.sub half_voxel_size)
      max := cwiseMax surface_obb.max (voxel_coordinates.add half_voxel_size) }
  else surface_obb

/-- Body of the outer loop (lines 243–261) for one `block_index`. -/
def surfaceObbBlockBody (s : VoxgraphSubmap G) (half_voxel_size : Point)
    (surface_obb : BoundingBox) (block_index : BlockIndex) : BoundingBox :=
  let block := s.tsdf_layer.getBlockByIndex block_index
  (List.range (num_voxels_per_block s.tsdf_layer)).foldl
    (surfaceObbVoxelBody s.registration_filter half_voxel_size block) surface_obb

/-- The scan of lines 228–262, started from the box `surface_obb`. -/
def surfaceObbScan (s : VoxgraphSubmap G) (surface_obb : BoundingBox) : BoundingBox :=
  let half_voxel_size := Point.timesOnes (1 / 2 * s.tsdf_layer.voxel_size)
  s.tsdf_layer.getAllAllocatedBlocks.foldl (surfaceObbBlockBody s half_voxel_size) surface_obb

/-- Method `VoxgraphSubmap::getSubmapFrameSurfaceObb`: the returned box and the submap
with its `mutable` member `surface_obb_` after the call. -/
def getSubmapFrameSurfaceObb (s : VoxgraphSubmap G) : BoundingBox × VoxgraphSubmap G :=
  if s.surface_obb_.anyMinAboveMax then
    let surface_obb := surfaceObbScan s s.surface_obb_
    (surface_obb, { s with surface_obb_ := surface_obb })
  else (s.surface_obb_, s)

/-! ### `getSubmapFrameSubmapObb` (lines 267–291) -/

/-- Body of the loop (lines 283–287) for one `block_index`. -/
def submapObbBlockBody (ext : External G) (block_size : ℚ) (half_block_size : Point)
    (map_obb : BoundingBox) (block_index : BlockIndex) : BoundingBox :=
  let block_coordinates := ext.getCenterPointFromGridIndex block_index block_size
  { min := cwiseMin map_obb.min (block_coordinates.sub half_block_size)
    max := cwiseMax map_obb.max (block_coordinates.add half_block_size) }

/-- The scan of lines 274–288, started from the box `map_obb`. -/
def submapObbScan (ext : External G) (s : VoxgraphSubmap G) (map_obb : BoundingBox) :
    BoundingBox :=
  let half_block_size := Point.timesOnes (1 / 2 * s.tsdf_layer.block_size)
  s.tsdf_layer.getAllAllocatedBlocks.foldl
    (submapObbBlockBody ext s.tsdf_layer.block_size half_block_size) map_obb

/-- Method `VoxgraphSubmap::getSubmapFrameSubmapObb`: the returned box and the submap
with its `mutable` member `map_obb_` after the call. -/
def getSubmapFrameSubmapObb (ext : External G) (s : VoxgraphSubmap G) :
    BoundingBox × VoxgraphSubmap G :=
  if s.map_obb_.anyMinAboveMax then
    let map_obb := submapObbScan ext s s.map_obb_
    (map_obb, { s with map_obb_ := map_obb })
  else (s.map_obb_, s)

/-! ### World-frame box and overlap test (lines 206–219, 313–317) -/

/-- Method `VoxgraphSubmap::getWorldFrameSurfaceAabb`, with the submap after the call. -/
def getWorldFrameSurfaceAabb (ext : External G) (s : VoxgraphSubmap G) :
    BoundingBox × VoxgraphSubmap G :=
  let r := getSubmapFrameSurfaceObb s
  (ext.getAabbFromObbAndPose r.1 r.2.pose, r.2)

/-- Lines 211–218 of `overlapsWith`: the separating-axis test on the two boxes. -/
def overlapsAabb (aabb other_aabb : BoundingBox) : Bool :=
  if aabb.max.coeff 0 < other_aabb.min.coeff 0 ∨ aabb.min.coeff 0 > other_aabb.max.coeff 0 then
    false
  else if aabb.max.coeff 1 < other_aabb.min.coeff 1 ∨
      aabb.min.coeff 1 > other_aabb.max.coeff 1 then
    false
  else if aabb.max.coeff 2 < other_aabb.min.coeff 2 ∨
      aabb.min.coeff 2 > other_aabb.max.coeff 2 then
    false
  else true

/-- Method `VoxgraphSubmap::overlapsWith`. -/
def overlapsWith (ext : External G) (s other_submap : VoxgraphSubmap G) : Bool :=
  let aabb := (getWorldFrameSurfaceAabb ext s).1
  let other_aabb := (getWorldFrameSurfaceAabb ext other_submap).1
  overlapsAabb aabb other_aabb

/-! ### Lifecycle (lines 35–108) -/

/-- Method `VoxgraphSubmap::finishSubmap`; `none` when one of the two extractions
aborts. The two `std::cout` lines have no effect on the state. -/
def finishSubmap (ext : External G) (s : VoxgraphSubmap G) : Option (VoxgraphSubmap G) :=
  let s1 := { s with esdf_layer := ext.generateEsdf s.tsdf_layer s.esdf_layer }
  let s2 := (getSubmapFrameSubmapObb ext s1).2
  let s3 := (getSubmapFrameSurfaceObb s2).2
  match findRelevantVoxelIndices s3 with
  | none => none
  | some s4 =>
    match findIsosurfaceVertices ext s4 with
    | none => none
    | some s5 => some { s5 with finished_ := true }

/-- Method `VoxgraphSubmap::transformSubmap`. -/
def transformSubmap [Group G] (ext : External G) (s : VoxgraphSubmap G) (T_new_old : G) :
    Option (VoxgraphSubmap G) :=
  let old_tsdf_layer := s.tsdf_layer
  let s1 := { s with tsdf_layer := ext.transformLayer old_tsdf_layer T_new_old s.tsdf_layer }
  let s2 := { s1 with surface_obb_ := s1.surface_obb_.reset, map_obb_ := s1.map_obb_.reset }
  let s3 := { s2 with
    pose_history_ := s2.pose_history_.map (fun (kv : Time × G) => (kv.1, T_new_old * kv.2)) }
  let s4 := { s3 with pose := s3.pose * T_new_old⁻¹ }
  finishSubmap ext s4

/-- Method `std::map::emplace` on the pose history, a list kept in increasing order of
its keys: the pair is inserted unless the key is already present. -/
def mapEmplace (m : List (Time × G)) (timestamp : Time) (value : G) : List (Time × G) :=
  match m with
  | [] => [(timestamp, value)]
  | kv :: rest =>
    if timestamp < kv.1 then (timestamp, value) :: kv :: rest
    else if timestamp = kv.1 then kv :: rest
    else kv :: mapEmplace rest timestamp value

/-- Method `VoxgraphSubmap::addPoseToHistory`. -/
def addPoseToHistory [Group G] (s : VoxgraphSubmap G) (timestamp : Time)
    (T_world_robot : G) : VoxgraphSubmap G :=
  let T_submap_robot := s.pose⁻¹ * T_world_robot
  { s with pose_history_ := mapEmplace s.pose_history_ timestamp T_submap_robot }

/-- Method `VoxgraphSubmap::setRegistrationFilterConfig`. -/
def setRegistrationFilterConfig (s : VoxgraphSubmap G)
    (registration_filter_config : RegistrationFilter) : VoxgraphSubmap G :=
  { s with registration_filter := registration_filter_config }

/-- Method `VoxgraphSubmap::getCreationTime`. -/
def getCreationTime (s : VoxgraphSubmap G) : Time :=
  match s.pose_history_ with
  | [] => 0
  | kv :: _ => kv.1

/-- Method `VoxgraphSubmap::getRegistrationPoints`, a `const` method that writes no
member; `none` when `CHECK(finished_)` fails. -/
def getRegistrationPoints (s : VoxgraphSubmap G)
    (registration_point_type : RegistrationPointType) :
    Option (WeightedSampler RegistrationPoint) :=
  if s.finished_ then
    match registration_point_type with
    | RegistrationPointType.kVoxels => some s.relevant_voxels_
    | RegistrationPointType.kIsosurfacePoints => some s.isosurface_vertices_
  else none

/-! ## Vocabulary of the statements -/

/-- A voxel of the TSDF layer: the index of its block and its linear index in the block. -/
abbrev VoxelRef := BlockIndex × Nat

/-- Every voxel of every allocated block, in the order in which the scans visit them. -/
def allocatedVoxels (tsdf_layer : TsdfLayer) : List VoxelRef :=
  tsdf_layer.getAllAllocatedBlocks.flatMap fun block_index =>
    (List.range (num_voxels_per_block tsdf_layer)).map fun linear_index =>
      (block_index, linear_index)

/-- The TSDF voxel a reference points to. -/
def tsdfVoxelAt (tsdf_layer : TsdfLayer) (v : VoxelRef) : TsdfVoxel :=
  (tsdf_layer.getBlockByIndex v.1).getVoxelByLinearIndex v.2

/-- The coordinate reconstructed from the linear index of a voxel in its block. -/
def voxelCoordinates (tsdf_layer : TsdfLayer) (v : VoxelRef) : Point :=
  (tsdf_layer.getBlockByIndex v.1).computeCoordinatesFromLinearIndex v.2

/-- The truncation-band filter in the words of the spec: `weight > min_voxel_weight`
and `|distance| < max_voxel_distance`, both strict. -/
def Admitted (filter : RegistrationFilter) (tsdf_layer : TsdfLayer) (v : VoxelRef) : Prop :=
  (tsdfVoxelAt tsdf_layer v).weight > filter.min_voxel_weight ∧
    |(tsdfVoxelAt tsdf_layer v).distance| < filter.max_voxel_distance

instance (filter : RegistrationFilter) (tsdf_layer : TsdfLayer) (v : VoxelRef) :
    Decidable (Admitted filter tsdf_layer v) := by
  unfold Admitted
  infer_instance

/-- The allocated voxels that pass the truncation-band filter, in scan order. -/
def admittedVoxels (filter : RegistrationFilter) (tsdf_layer : TsdfLayer) : List VoxelRef :=
  (allocatedVoxels tsdf_layer).filter fun v => decide (Admitted filter tsdf_layer v)

/-- The distance the spec assigns to the item of a voxel: the stored TSDF distance, or
with `use_esdf_distance` the distance of the ESDF voxel at the same block index and
linear index; `none` when that ESDF voxel does not exist. -/
def recordedDistance (s : VoxgraphSubmap G) (v : VoxelRef) : Option ℚ :=
  if s.registration_filter.use_esdf_distance then
    match s.esdf_layer.getBlockPtrByIndex v.1 with
    | none => none
    | some block =>
      if block.isValidLinearIndex v.2 then some (block.getVoxelByLinearIndex v.2).distance
      else none
  else some (tsdfVoxelAt s.tsdf_layer v).distance

/-- The sampler entry the spec assigns to a voxel: the registration point and its
sampling weight. -/
def registrationItem (s : VoxgraphSubmap G) (v : VoxelRef) :
    Option (RegistrationPoint × ℚ) :=
  match recordedDistance s v with
  | none => none
  | some d =>
    some (⟨voxelCoordinates s.tsdf_layer v, d, (tsdfVoxelAt s.tsdf_layer v).weight⟩,
      (tsdfVoxelAt s.tsdf_layer v).weight)

/-- The list of `g a` for `a` in the list, or `none` when some `g a` is `none`. -/
def collectItems {α β : Type} (g : α → Option β) : List α → Option (List β)
  | [] => some []
  | a :: l =>
    match g a, collectItems g l with
    | some b, some bs => some (b :: bs)
    | _, _ => none

/-- The corner `voxel_coordinates - half_voxel_size` of the volume of a voxel. -/
def voxelMinCorner (tsdf_layer : TsdfLayer) (v : VoxelRef) : Point :=
  (voxelCoordinates tsdf_layer v).sub (Point.timesOnes (1 / 2 * tsdf_layer.voxel_size))

/-- The corner `voxel_coordinates + half_voxel_size` of the volume of a voxel. -/
def voxelMaxCorner (tsdf_layer : TsdfLayer) (v : VoxelRef) : Point :=
  (voxelCoordinates tsdf_layer v).add (Point.timesOnes (1 / 2 * tsdf_layer.voxel_size))

/-- The corner `block_coordinates - half_block_size` of the volume of a block. -/
def blockMinCorner (ext : External G) (tsdf_layer : TsdfLayer) (b : BlockIndex) : Point :=
  (ext.getCenterPointFromGridIndex b tsdf_layer.block_size).sub
    (Point.timesOnes (1 / 2 * tsdf_layer.block_size))

/-- The corner `block_coordinates + half_block_size` of the volume of a block. -/
def blockMaxCorner (ext : External G) (tsdf_layer : TsdfLayer) (b : BlockIndex) : Point :=
  (ext.getCenterPointFromGridIndex b tsdf_layer.block_size).add
    (Point.timesOnes (1 / 2 * tsdf_layer.block_size))

/-- A box grown to contain the volume between the corners `lo` and `hi`. -/
def BoundingBox.expand (box : BoundingBox) (lo hi : Point) : BoundingBox :=
  { min := cwiseMin box.min lo
    max := cwiseMax box.max hi }

/-- A box grown, one element of the list after the other, to contain the volume between
the corners `lo a` and `hi a` of every element `a`. -/
def BoundingBox.expandAll {α : Type} (lo hi : α → Point) (box : BoundingBox)
    (l : List α) : BoundingBox :=
  l.foldl (fun b a => b.expand (lo a) (hi a)) box

/-- The surface box a from-scratch computation gives: the accessor run on the submap
with the cached surface box reset. -/
def freshSurfaceObb (s : VoxgraphSubmap G) : BoundingBox :=
  (getSubmapFrameSurfaceObb { s with surface_obb_ := s.surface_obb_.reset }).1

/-- The full-volume box a from-scratch computation gives: the accessor run on the submap
with the cached full-volume box reset. -/
def freshSubmapObb (ext : External G) (s : VoxgraphSubmap G) : BoundingBox :=
  (getSubmapFrameSubmapObb ext { s with map_obb_ := s.map_obb_.reset }).1

/-! ## Concrete data for the worked instances -/

/-- A block of 2×2×2 voxels of edge 1 with origin 0: voxels 0 and 4 pass the filter
`weight > 1 ∧ |distance| < 1`, voxel 1 has `weight = 1`, voxels 2 and 3 have
`|distance| = 1`, the others are unobserved. -/
def exampleTsdfBlock : TsdfBlock where
  getVoxelByLinearIndex := fun i =>
    match i with
    | 0 => ⟨0, 2⟩
    | 1 => ⟨0, 1⟩
    | 2 => ⟨1, 2⟩
    | 3 => ⟨-1, 2⟩
    | 4 => ⟨-1 / 2, 3⟩
    | _ => ⟨0, 0⟩
  computeCoordinatesFromLinearIndex := fun i =>
    ⟨((i % 2 : Nat) : ℚ) + 1 / 2, (((i / 2) % 2 : Nat) : ℚ) + 1 / 2,
      ((i / 4 : Nat) : ℚ) + 1 / 2⟩

/-- A TSDF layer with the single allocated block `exampleTsdfBlock`. -/
def exampleTsdfLayer : TsdfLayer where
  voxel_size := 1
  voxels_per_side := 2
  block_size := 2
  getAllAllocatedBlocks := [⟨0, 0, 0⟩]
  getBlockByIndex := fun _ => exampleTsdfBlock

/-- An ESDF block valid at the eight linear indices, with distance `linear_index + 10`. -/
def exampleEsdfBlock : EsdfBlock where
  isValidLinearIndex := fun i => decide (i < 8)
  getVoxelByLinearIndex := fun i => ⟨(i : ℚ) + 10⟩

/-- An ESDF layer that holds `exampleEsdfBlock` at every block index. -/
def exampleEsdfLayer : EsdfLayer where
  getBlockPtrByIndex := fun _ => some exampleEsdfBlock

/-- External functions for the worked instances: the mesh has no vertex, the ESDF and
the transformed layer are the ones given, block centres follow the voxblox formula
`(index + 0.5) * grid_size`, and the world box of an oriented box is the box itself. -/
def exampleExternal : External (Multiplicative ℤ) where
  generateEsdf := fun _ esdf => esdf
  transformLayer := fun layer_in _ _ => layer_in
  connectedMeshVertices := fun _ _ => []
  interpolatorGetVoxel := fun _ _ => none
  getCenterPointFromGridIndex := fun index grid_size =>
    ⟨((index.x : ℚ) + 1 / 2) * grid_size, ((index.y : ℚ) + 1 / 2) * grid_size,
      ((index.z : ℚ) + 1 / 2) * grid_size⟩
  getAabbFromObbAndPose := fun obb _ => obb

/-- A newly constructed submap over `exampleTsdfLayer` with filter
`min_voxel_weight = 1`, `max_voxel_distance = 1`, `use_esdf_distance = false`. -/
def exampleSubmap : VoxgraphSubmap (Multiplicative ℤ) where
  pose := 1
  tsdf_layer := exampleTsdfLayer
  esdf_layer := exampleEsdfLayer
  registration_filter := ⟨1, 1, false⟩
  pose_history_ := []
  finished_ := false
  relevant_voxels_ := ⟨[]⟩
  isosurface_vertices_ := ⟨[]⟩
  surface_obb_ := {}
  map_obb_ := {}

/-- The submap `exampleSubmap` with `use_esdf_distance = true`. -/
def exampleSubmapEsdf : VoxgraphSubmap (Multiplicative ℤ) :=
  { exampleSubmap with registration_filter := ⟨1, 1, true⟩ }

/-- The items of voxels 0 and 4 of `exampleTsdfBlock`, with their TSDF distances. -/
def exampleRelevantVoxels : WeightedSampler RegistrationPoint :=
  ⟨[(⟨⟨1 / 2, 1 / 2, 1 / 2⟩, 0, 2⟩, 2), (⟨⟨1 / 2, 1 / 2, 3 / 2⟩, -1 / 2, 3⟩, 3)]⟩

/-- The items of voxels 0 and 4 of `exampleTsdfBlock`, with their ESDF distances. -/
def exampleRelevantVoxelsEsdf : WeightedSampler RegistrationPoint :=
  ⟨[(⟨⟨1 / 2, 1 / 2, 1 / 2⟩, 10, 2⟩, 2), (⟨⟨1 / 2, 1 / 2, 3 / 2⟩, 14, 3⟩, 3)]⟩

/-- The box `[0,1]×[0,1]×[0,1]`. -/
def unitBox : BoundingBox where
  min := ⟨Scalar.ofRat 0, Scalar.ofRat 0, Scalar.ofRat 0⟩
  max := ⟨Scalar.ofRat 1, Scalar.ofRat 1, Scalar.ofRat 1⟩

/-- The box `[2,3]×[0,1]×[0,1]`. -/
def farBox : BoundingBox where
  min := ⟨Scalar.ofRat 2, Scalar.ofRat 0, Scalar.ofRat 0⟩
  max := ⟨Scalar.ofRat 3, Scalar.ofRat 1, Scalar.ofRat 1⟩

/-- The box `[0.5,1.5]×[0.5,1.5]×[0.5,1.5]`. -/
def halfShiftedBox : BoundingBox where
  min := ⟨Scalar.ofRat (1 / 2), Scalar.ofRat (1 / 2), Scalar.ofRat (1 / 2)⟩
  max := ⟨Scalar.ofRat (3 / 2), Scalar.ofRat (3 / 2), Scalar.ofRat (3 / 2)⟩

/-- The box `[1,2]×[0,1]×[0,1]`, which shares a face with `unitBox`. -/
def touchingBox : BoundingBox where
  min := ⟨Scalar.ofRat 1, Scalar.ofRat 0, Scalar.ofRat 0⟩
  max := ⟨Scalar.ofRat 2, Scalar.ofRat 1, Scalar.ofRat 1⟩

/-- The surface box of `exampleSubmap`: the volumes of voxels 0 and 4, `[0,1]×[0,1]×[0,2]`. -/
def exampleSurfaceObb : BoundingBox where
  min := ⟨Scalar.ofRat 0, Scalar.ofRat 0, Scalar.ofRat 0⟩
  max := ⟨Scalar.ofRat 1, Scalar.ofRat 1, Scalar.ofRat 2⟩

/-- The full-volume box of `exampleSubmap`: the block at index 0 of size 2, `[0,2]³`. -/
def exampleMapObb : BoundingBox where
  min := ⟨Scalar.ofRat 0, Scalar.ofRat 0, Scalar.ofRat 0⟩
  max := ⟨Scalar.ofRat 2, Scalar.ofRat 2, Scalar.ofRat 2⟩

/-- A layer like `exampleTsdfLayer` with no allocated block. -/
def emptyTsdfLayer : TsdfLayer :=
  { exampleTsdfLayer with getAllAllocatedBlocks := [] }

/-- A newly constructed submap without allocated blocks. -/
def emptySubmap : VoxgraphSubmap (Multiplicative ℤ) :=
  { exampleSubmap with tsdf_layer := emptyTsdfLayer }

/-- The submap `exampleSubmap` with a filter no voxel passes (`min_voxel_weight = 5`). -/
def exampleSubmapStrict : VoxgraphSubmap (Multiplicative ℤ) :=
  { exampleSubmap with registration_filter := ⟨5, 1, false⟩ }

/-- The submap `exampleSubmap` after `finishSubmap`. -/
def exampleFinished : VoxgraphSubmap (Multiplicative ℤ) :=
  { exampleSubmap with
    finished_ := true
    relevant_voxels_ := exampleRelevantVoxels
    surface_obb_ := exampleSurfaceObb
    map_obb_ := exampleMapObb }

/-- The submap `exampleFinished` after `setRegistrationFilterConfig` raised
`min_voxel_weight` to 2, so that only voxel 4 passes the filter. -/
def exampleReconfigured : VoxgraphSubmap (Multiplicative ℤ) :=
  setRegistrationFilterConfig exampleFinished ⟨2, 1, false⟩

/-- The submap `exampleReconfigured` after a second `finishSubmap`: the sampler holds
voxel 4 only, the surface box is still the one of voxels 0 and 4. -/
def exampleRefinished : VoxgraphSubmap (Multiplicative ℤ) :=
  { exampleReconfigured with
    relevant_voxels_ := ⟨[(⟨⟨1 / 2, 1 / 2, 3 / 2⟩, -1 / 2, 3⟩, 3)]⟩ }

/-- The volume of voxel 4 alone, `[0,1]×[0,1]×[1,2]`. -/
def exampleTightObb : BoundingBox where
  min := ⟨Scalar.ofRat 0, Scalar.ofRat 0, Scalar.ofRat 1⟩
  max := ⟨Scalar.ofRat 1, Scalar.ofRat 1, Scalar.ofRat 2⟩

/-- The submap `exampleSubmap` with pose `7` and two poses in its history. -/
def examplePosed : VoxgraphSubmap (Multiplicative ℤ) :=
  { exampleSubmap with
    pose := Multiplicative.ofAdd 7
    pose_history_ := [(1, Multiplicative.ofAdd 3), (5, Multiplicative.ofAdd 4)] }

/-- The submap `examplePosed` after `transformSubmap` with the transformation `2`. -/
def exampleTransformed : VoxgraphSubmap (Multiplicative ℤ) :=
  { exampleFinished with
    pose := Multiplicative.ofAdd 5
    pose_history_ := [(1, Multiplicative.ofAdd 5), (5, Multiplicative.ofAdd 6)] }

/-! ## Pose history, construction and runs -/

/-- The representation invariant of the `std::map` that holds the pose history: the
timestamps are strictly increasing along the list. -/
def historyOrdered (m : List (Time × G)) : Prop :=
  List.Pairwise (fun (a b : Time × G) => a.1 < b.1) m

instance (m : List (Time × G)) : Decidable (historyOrdered m) := by
  unfold historyOrdered
  infer_instance

/-- The pose the history holds at a timestamp, `none` when the timestamp is not a key. -/
def historyAt (m : List (Time × G)) (t : Time) : Option G :=
  match m with
  | [] => none
  | kv :: rest => if kv.1 = t then some kv.2 else historyAt rest t

/-- The submap after `addPoseToHistory` was called once for every pair of the list, in
the order of the list. -/
def addPosesToHistory [Group G] (s : VoxgraphSubmap G) (adds : List (Time × G)) :
    VoxgraphSubmap G :=
  adds.foldl (fun acc (a : Time × G) => addPoseToHistory acc a.1 a.2) s

/-- Modelled from the spec: the state the two constructors (lines 13–33) leave. They set
the pose, the volumetric maps and the config; the other members keep the initialisers
of `voxgraph_submap.h`, which is not at hand: "created with an initial pose and empty
history", not finished, samplers empty, both boxes in the unset sentinel state. -/
def newSubmap (T_M_S : G) (tsdf_layer : TsdfLayer) (esdf_layer : EsdfLayer)
    (registration_filter : RegistrationFilter) : VoxgraphSubmap G where
  pose := T_M_S
  tsdf_layer := tsdf_layer
  esdf_layer := esdf_layer
  registration_filter := registration_filter
  pose_history_ := []
  finished_ := false
  relevant_voxels_ := ⟨[]⟩
  isosurface_vertices_ := ⟨[]⟩
  surface_obb_ := {}
  map_obb_ := {}

/-- The calls a client can make on a submap. The world-frame box and corner queries
change the submap as the submap-frame accessor they call does, and `overlapsWith`
changes each of its two submaps as `getWorldFrameSurfaceAabb` does. -/
inductive Operation (G : Type) where
  | addPoseToHistory (timestamp : Time) (T_world_robot : G)
  | setRegistrationFilterConfig (registration_filter_config : RegistrationFilter)
  | finishSubmap
  | transformSubmap (T_new_old : G)
  | getSubmapFrameSurfaceObb
  | getSubmapFrameSubmapObb
  | overlapsWith (other_submap : VoxgraphSubmap G)

/-- The submap after one call, `none` when the call aborts. -/
def applyOperation [Group G] (ext : External G) (s : VoxgraphSubmap G) :
    Operation G → Option (VoxgraphSubmap G)
  | Operation.addPoseToHistory timestamp T_world_robot =>
    some (addPoseToHistory s timestamp T_world_robot)
  | Operation.setRegistrationFilterConfig registration_filter_config =>
    some (setRegistrationFilterConfig s registration_filter_config)
  | Operation.finishSubmap => finishSubmap ext s
  | Operation.transformSubmap T_new_old => transformSubmap ext s T_new_old
  | Operation.getSubmapFrameSurfaceObb => some (getSubmapFrameSurfaceObb s).2
  | Operation.getSubmapFrameSubmapObb => some (getSubmapFrameSubmapObb ext s).2
  | Operation.overlapsWith _ => some (getWorldFrameSurfaceAabb ext s).2

/-- The submap after a sequence of calls, `none` when one of them aborts. -/
def runOperations [Group G] (ext : External G) (s : VoxgraphSubmap G)
    (ops : List (Operation G)) : Option (VoxgraphSubmap G) :=
  ops.foldlM (applyOperation ext) s

/-- Whether the call respects the restriction on config changes: a
`setRegistrationFilterConfig` is made only while the cached surface box is in the unset
sentinel state; every other call is free. -/
def configChangeAllowed (s : VoxgraphSubmap G) : Operation G → Bool
  | Operation.setRegistrationFilterConfig _ => decide (s.surface_obb_ = {})
  | _ => true

/-- Whether every `setRegistrationFilterConfig` of the run is made while the cached
surface box is in the unset sentinel state. -/
def configSetOnlyWhileUnset [Group G] (ext : External G) :
    VoxgraphSubmap G → List (Operation G) → Bool
  | _, [] => true
  | s, op :: ops =>
    configChangeAllowed s op &&
      (match applyOperation ext s op with
        | none => true
        | some s' => configSetOnlyWhileUnset ext s' ops)

/-- The cached surface box is unset or is the box a from-scratch computation gives. -/
def surfaceBoxFresh (s : VoxgraphSubmap G) : Prop :=
  s.surface_obb_ = {} ∨ s.surface_obb_ = freshSurfaceObb s

/-- Every coefficient of the box is a finite value. -/
def BoundingBox.allFinite (b : BoundingBox) : Prop :=
  ∀ i : Fin 3, (∃ q : ℚ, b.min.coeff i = Scalar.ofRat q) ∧
    (∃ q : ℚ, b.max.coeff i = Scalar.ofRat q)

/-- The box is in the unset sentinel state or every coefficient of it is finite. -/
def BoundingBox.unsetOrFinite (b : BoundingBox) : Prop :=
  b = {} ∨ b.allFinite

/-! ## The angle parameterization (angle_local_parameterization.h) -/

/-- Modelled from the spec: function template `NormalizeAngle` of `normalize_angle.h`
(not at hand). The spec names it as the wrap of an angle "into `[-π, π)`"; this is the
wrap of the ceres example the header comment refers to,
`angle - 2π * floor((angle + π) / 2π)`, with `pi` the value of π in the scalar type. -/
def NormalizeAngle {K : Type} [LinearOrderedField K] [FloorRing K] (pi : K)
    (angle_radians : K) : K :=
  let two_pi := 2 * pi
  angle_radians - two_pi * ((Int.floor ((angle_radians + pi) / two_pi) : ℤ) : K)

/-- Method `AngleLocalParameterization::operator()`: the returned flag and the value
written to `*theta_radians_plus_delta`. -/
def AngleLocalParameterization.call {K : Type} [LinearOrderedField K] [FloorRing K]
    (pi : K) (theta_radians delta_theta_radians : K) : Bool × K :=
  (true, NormalizeAngle pi (theta_radians + delta_theta_radians))

/-! ## Further concrete data -/

/-- The submap `exampleSubmap` whose two samplers hold an item left from before. -/
def exampleSubmapUsed : VoxgraphSubmap (Multiplicative ℤ) :=
  { exampleSubmap with
    relevant_voxels_ := ⟨[(⟨⟨9, 9, 9⟩, 9, 9⟩, 9)]⟩
    isosurface_vertices_ := ⟨[(⟨⟨8, 8, 8⟩, 8, 8⟩, 8)]⟩ }

/-- External functions whose mesh has the single vertex `(0,0,0)`, at which the
interpolated voxel has distance `-5` and weight `1`. -/
def exampleExternalInside : External (Multiplicative ℤ) :=
  { exampleExternal with
    connectedMeshVertices := fun _ _ => [⟨0, 0, 0⟩]
    interpolatorGetVoxel := fun _ _ => some ⟨-5, 1⟩ }

/-- External functions whose mesh has the single vertex `(0,0,0)`, at which the
interpolated voxel has distance `5` and weight `1`. -/
def exampleExternalOutside : External (Multiplicative ℤ) :=
  { exampleExternal with
    connectedMeshVertices := fun _ _ => [⟨0, 0, 0⟩]
    interpolatorGetVoxel := fun _ _ => some ⟨5, 1⟩ }

/-- The box with `min = −∞` and `max = +∞` on every axis. -/
def wholeSpaceBox : BoundingBox where
  min := ⟨Scalar.negInf, Scalar.negInf, Scalar.negInf⟩
  max := ⟨Scalar.posInf, Scalar.posInf, Scalar.posInf⟩

/-- The submap `exampleSubmap` constructed with `min_voxel_weight = 2` and finished:
voxel 4 alone is admitted and the surface box is its volume. -/
def exampleTightFinished : VoxgraphSubmap (Multiplicative ℤ) :=
  { exampleSubmap with
    registration_filter := ⟨2, 1, false⟩
    finished_ := true
    relevant_voxels_ := ⟨[(⟨⟨1 / 2, 1 / 2, 3 / 2⟩, -1 / 2, 3⟩, 3)]⟩
    surface_obb_ := exampleTightObb
    map_obb_ := exampleMapObb }

/-- The submap `exampleTightFinished` after `setRegistrationFilterConfig` lowered
`min_voxel_weight` to 1. -/
def exampleLoosened : VoxgraphSubmap (Multiplicative ℤ) :=
  setRegistrationFilterConfig exampleTightFinished ⟨1, 1, false⟩

/-- The submap `exampleLoosened` after `finishSubmap`: the sampler holds voxels 0 and 4,
the surface box is still the volume of voxel 4. -/
def exampleLoosenedFinished : VoxgraphSubmap (Multiplicative ℤ) :=
  { exampleLoosened with relevant_voxels_ := exampleRelevantVoxels }

/-! ## Lemmas on the extraction loops -/

theorem collectItems_append {α β : Type} (g : α → Option β) (l₁ l₂ : List α) :
    collectItems g (l₁ ++ l₂) =
      match collectItems g l₁, collectItems g l₂ with
      | some bs₁, some bs₂ => some (bs₁ ++ bs₂)
      | _, _ => none := by
  induction l₁ with
  | nil => cases h : collectItems g l₂ <;> simp [collectItems, h]
  | cons a l ih =>
    show collectItems g (a :: (l ++ l₂)) = _
    simp only [collectItems]
    rw [ih]
    cases g a <;> cases collectItems g l <;> cases collectItems g l₂ <;> rfl

theorem collectItems_map {α β γ : Type} (g : α → Option β) (e : γ → α) (l : List γ) :
    collectItems g (l.map e) = collectItems (fun c => g (e c)) l := by
  induction l with
  | nil => rfl
  | cons a l ih => simp only [List.map_cons, collectItems, ih]

theorem collectItems_forall₂ {α β : Type} (g : α → Option β) :
    ∀ (l : List α) (bs : List β), collectItems g l = some bs →
      List.Forall₂ (fun a b => g a = some b) l bs := by
  intro l
  induction l with
  | nil =>
    intro bs h
    simp only [collectItems, Option.some.injEq] at h
    subst h
    exact List.Forall₂.nil
  | cons a l ih =>
    intro bs h
    simp only [collectItems] at h
    cases hg : g a with
    | none => simp [hg] at h
    | some b =>
      cases hl : collectItems g l with
      | none => simp [hg, hl] at h
      | some bs₀ =>
        simp only [hg, hl, Option.some.injEq] at h
        subst h
        exact List.Forall₂.cons hg (ih bs₀ hl)

theorem collectItems_isSome {α β : Type} (g : α → Option β) (l : List α)
    (h : ∀ a ∈ l, (g a).isSome) : (collectItems g l).isSome := by
  induction l with
  | nil => rfl
  | cons a l ih =>
    have ha := h a (List.mem_cons_self a l)
    have hl := ih (fun b hb => h b (List.mem_cons_of_mem a hb))
    simp only [collectItems]
    cases hg : g a with
    | none => simp [hg] at ha
    | some b =>
      cases hc : collectItems g l with
      | none => simp [hc] at hl
      | some bs => rfl

theorem foldlM_collect {α β : Type} (p : α → Bool)
    (g : α → Option (β × ℚ)) (step : WeightedSampler β → α → Option (WeightedSampler β))
    (hyes : ∀ acc a, p a = true →
      step acc a = (g a).map fun it => ⟨acc.items ++ [it]⟩)
    (hno : ∀ acc a, p a = false → step acc a = some acc) :
    ∀ (l : List α) (acc : WeightedSampler β), l.foldlM step acc =
      (collectItems g (l.filter p)).map fun new => ⟨acc.items ++ new⟩ := by
  intro l
  induction l with
  | nil =>
    intro acc
    cases acc
    simp [collectItems]
  | cons a l ih =>
    intro acc
    rw [List.foldlM_cons]
    cases h : p a with
    | true =>
      rw [hyes acc a h]
      simp only [List.filter_cons, h, if_true, collectItems]
      cases hg : g a with
      | none => simp
      | some it =>
        simp only [Option.map_some', Option.some_bind, ih]
        cases collectItems g (List.filter p l) <;> simp
    | false =>
      rw [hno acc a h]
      simp only [List.filter_cons, h, Option.some_bind, ih]
      simp

theorem foldlM_collect_flatMap {α γ β : Type} (g : α → Option (β × ℚ)) (F : γ → List α)
    (step : WeightedSampler β → γ → Option (WeightedSampler β))
    (hstep : ∀ acc c, step acc c =
      (collectItems g (F c)).map fun new => ⟨acc.items ++ new⟩) :
    ∀ (l : List γ) (acc : WeightedSampler β), l.foldlM step acc =
      (collectItems g (l.flatMap F)).map fun new => ⟨acc.items ++ new⟩ := by
  intro l
  induction l with
  | nil =>
    intro acc
    cases acc
    simp [collectItems]
  | cons c l ih =>
    intro acc
    rw [List.foldlM_cons, hstep, List.flatMap_cons, collectItems_append]
    cases collectItems g (F c) with
    | none => simp
    | some new =>
      simp only [Option.map_some', Option.some_bind, ih]
      cases collectItems g (l.flatMap F) <;> simp

theorem relevantVoxelBody_admitted (s : VoxgraphSubmap G) (block_index : BlockIndex)
    (acc : WeightedSampler RegistrationPoint) (i : Nat)
    (h : Admitted s.registration_filter s.tsdf_layer (block_index, i)) :
    relevantVoxelBody s.registration_filter (s.tsdf_layer.getBlockByIndex block_index)
        (if s.registration_filter.use_esdf_distance then
          s.esdf_layer.getBlockPtrByIndex block_index else none) acc i =
      (registrationItem s (block_index, i)).map fun it => ⟨acc.items ++ [it]⟩ := by
  unfold Admitted tsdfVoxelAt at h
  unfold relevantVoxelBody registrationItem recordedDistance tsdfVoxelAt
    voxelCoordinates WeightedSampler.addItem
  simp only [h, and_self, if_true]
  by_cases hu : s.registration_filter.use_esdf_distance = true
  · simp only [hu, if_true]
    cases hb : s.esdf_layer.getBlockPtrByIndex block_index with
    | none => rfl
    | some block =>
      simp only []
      split_ifs <;> rfl
  · simp only [hu, if_false]
    rfl

theorem relevantVoxelBody_rejected (filter : RegistrationFilter) (tsdf_layer : TsdfLayer)
    (block_index : BlockIndex) (esdf_block : Option EsdfBlock)
    (acc : WeightedSampler RegistrationPoint) (i : Nat)
    (h : ¬ Admitted filter tsdf_layer (block_index, i)) :
    relevantVoxelBody filter (tsdf_layer.getBlockByIndex block_index) esdf_block acc i =
      some acc := by
  unfold Admitted tsdfVoxelAt at h
  unfold relevantVoxelBody
  simp only [h, if_false]

theorem relevantBlockBody_eq (s : VoxgraphSubmap G)
    (acc : WeightedSampler RegistrationPoint) (block_index : BlockIndex) :
    relevantBlockBody s acc block_index =
      (collectItems (registrationItem s)
        (((List.range (num_voxels_per_block s.tsdf_layer)).map
          fun linear_index => (block_index, linear_index)).filter
            fun v => decide (Admitted s.registration_filter s.tsdf_layer v))).map
        fun new => ⟨acc.items ++ new⟩ := by
  unfold relevantBlockBody
  simp only []
  rw [foldlM_collect
    (fun i => decide (Admitted s.registration_filter s.tsdf_layer (block_index, i)))
    (fun i => registrationItem s (block_index, i)) _
    (fun acc i hi => relevantVoxelBody_admitted s block_index acc i (of_decide_eq_true hi))
    (fun acc i hi => relevantVoxelBody_rejected _ _ block_index _ acc i
      (of_decide_eq_false hi))]
  rw [List.filter_map, collectItems_map]
  rfl

/-- Closed form of `findRelevantVoxelIndices`: the items of the admitted voxels in scan
order, and an abort exactly when the item of some admitted voxel does not exist. -/
theorem findRelevantVoxelIndices_eq (s : VoxgraphSubmap G) :
    findRelevantVoxelIndices s =
      (collectItems (registrationItem s)
        (admittedVoxels s.registration_filter s.tsdf_layer)).map
        fun items => { s with relevant_voxels_ := ⟨items⟩ } := by
  unfold findRelevantVoxelIndices admittedVoxels allocatedVoxels
  simp only []
  rw [foldlM_collect_flatMap (registrationItem s)
    (fun block_index => ((List.range (num_voxels_per_block s.tsdf_layer)).map
          fun linear_index => (block_index, linear_index)).filter
            fun v => decide (Admitted s.registration_filter s.tsdf_layer v)) _
    (fun acc b => relevantBlockBody_eq s acc b)]
  rw [List.filter_flatMap]
  cases collectItems (registrationItem s) _ <;> simp [WeightedSampler.clear]

theorem collectItems_isSome_iff {α β : Type} (g : α → Option β) (l : List α) :
    (collectItems g l).isSome = true ↔ ∀ a ∈ l, (g a).isSome = true := by
  constructor
  · induction l with
    | nil => intro _ a ha; exact absurd ha (List.not_mem_nil a)
    | cons b l ih =>
      intro h a ha
      simp only [collectItems] at h
      cases hg : g b with
      | none => simp [hg] at h
      | some c =>
        cases hc : collectItems g l with
        | none => simp [hg, hc] at h
        | some cs =>
          rcases List.mem_cons.1 ha with rfl | ha
          · rw [hg]; rfl
          · exact ih (by rw [hc]; rfl) a ha
  · exact collectItems_isSome g l

/-- The extraction returns exactly when every admitted voxel has a distance to record:
always without `use_esdf_distance`, and with it when the ESDF block of every admitted
voxel exists and holds the linear index. -/
theorem findRelevantVoxelIndices_isSome_iff (s : VoxgraphSubmap G) :
    (findRelevantVoxelIndices s).isSome = true ↔
      ∀ v ∈ admittedVoxels s.registration_filter s.tsdf_layer,
        (recordedDistance s v).isSome = true := by
  rw [findRelevantVoxelIndices_eq, Option.isSome_map', collectItems_isSome_iff]
  constructor
  · intro h v hv
    have := h v hv
    unfold registrationItem at this
    cases hd : recordedDistance s v with
    | none => simp [hd] at this
    | some d => rfl
  · intro h v hv
    have := h v hv
    unfold registrationItem
    cases hd : recordedDistance s v with
    | none => simp [hd] at this
    | some d => rfl

theorem registrationItem_eq_some (s : VoxgraphSubmap G) (v : VoxelRef)
    (item : RegistrationPoint × ℚ) (h : registrationItem s v = some item) :
    item.1.position = voxelCoordinates s.tsdf_layer v ∧
    item.1.weight = (tsdfVoxelAt s.tsdf_layer v).weight ∧
    item.2 = (tsdfVoxelAt s.tsdf_layer v).weight ∧
    recordedDistance s v = some item.1.distance := by
  unfold registrationItem at h
  cases hd : recordedDistance s v with
  | none => simp [hd] at h
  | some d =>
    simp only [hd, Option.some.injEq] at h
    subst h
    exact ⟨rfl, rfl, rfl, rfl⟩

/-- C2. Whenever `findRelevantVoxelIndices` returns, the item of every admitted voxel
has the coordinate reconstructed from the voxel's linear index as position, the TSDF
weight as confidence weight and as sampling weight, and as distance the stored TSDF
distance when `use_esdf_distance` is off, the distance of the ESDF voxel at the same
block index and linear index when it is on. -/
theorem findRelevantVoxelIndices_item_content (s s' : VoxgraphSubmap G)
    (h : findRelevantVoxelIndices s = some s') :
    List.Forall₂
      (fun v (item : RegistrationPoint × ℚ) =>
        item.1.position =
          (s.tsdf_layer.getBlockByIndex v.1).computeCoordinatesFromLinearIndex v.2 ∧
        item.1.weight = ((s.tsdf_layer.getBlockByIndex v.1).getVoxelByLinearIndex v.2).weight ∧
        item.2 = ((s.tsdf_layer.getBlockByIndex v.1).getVoxelByLinearIndex v.2).weight ∧
        (s.registration_filter.use_esdf_distance = false →
          item.1.distance =
            ((s.tsdf_layer.getBlockByIndex v.1).getVoxelByLinearIndex v.2).distance) ∧
        (s.registration_filter.use_esdf_distance = true →
          ∃ block, s.esdf_layer.getBlockPtrByIndex v.1 = some block ∧
            item.1.distance = (block.getVoxelByLinearIndex v.2).distance))
      (admittedVoxels s.registration_filter s.tsdf_layer) s'.relevant_voxels_.items := by
  rw [findRelevantVoxelIndices_eq] at h
  cases hc : collectItems (registrationItem s)
      (admittedVoxels s.registration_filter s.tsdf_layer) with
  | none => simp [hc] at h
  | some items =>
    simp only [hc, Option.map_some', Option.some.injEq] at h
    subst h
    refine (collectItems_forall₂ _ _ _ hc).imp ?_
    intro v item hv
    obtain ⟨h1, h2, h3, h4⟩ := registrationItem_eq_some s v item hv
    refine ⟨h1, h2, h3, ?_, ?_⟩
    · intro hu
      simp only [recordedDistance, hu, Bool.false_eq_true, if_false, Option.some.injEq] at h4
      exact h4.symm
    · intro hu
      simp only [recordedDistance, hu, if_true] at h4
      cases hb : s.esdf_layer.getBlockPtrByIndex v.1 with
      | none => simp [hb] at h4
      | some block =>
        refine ⟨block, rfl, ?_⟩
        simp only [hb] at h4
        split_ifs at h4
        simp only [Option.some.injEq] at h4
        exact h4.symm

/-- On `exampleSubmapEsdf` the extraction returns and the two items carry the ESDF
distances 10 and 14 of voxels 0 and 4. -/
theorem findRelevantVoxelIndices_item_content_witness :
    findRelevantVoxelIndices exampleSubmapEsdf =
      some { exampleSubmapEsdf with relevant_voxels_ := exampleRelevantVoxelsEsdf } ∧
    List.Forall₂
      (fun v (item : RegistrationPoint × ℚ) =>
        item.1.position = exampleTsdfBlock.computeCoordinatesFromLinearIndex v.2 ∧
        item.1.weight = (exampleTsdfBlock.getVoxelByLinearIndex v.2).weight ∧
        item.2 = (exampleTsdfBlock.getVoxelByLinearIndex v.2).weight ∧
        (true = false →
          item.1.distance = (exampleTsdfBlock.getVoxelByLinearIndex v.2).distance) ∧
        (true = true →
          ∃ block, exampleEsdfLayer.getBlockPtrByIndex v.1 = some block ∧
            item.1.distance = (block.getVoxelByLinearIndex v.2).distance))
      (admittedVoxels exampleSubmapEsdf.registration_filter exampleSubmapEsdf.tsdf_layer)
      exampleRelevantVoxelsEsdf.items :=
  ⟨by with_unfolding_all rfl,
    findRelevantVoxelIndices_item_content exampleSubmapEsdf
      { exampleSubmapEsdf with relevant_voxels_ := exampleRelevantVoxelsEsdf }
      (by with_unfolding_all rfl)⟩

/-! ## The overlap test -/

theorem overlapsAabb_eq_false_iff (a b : BoundingBox) :
    overlapsAabb a b = false ↔
      ∃ i : Fin 3, a.max.coeff i < b.min.coeff i ∨ a.min.coeff i > b.max.coeff i := by
  unfold overlapsAabb
  constructor
  · intro h
    split_ifs at h with h0 h1 h2
    · exact ⟨0, h0⟩
    · exact ⟨1, h1⟩
    · exact ⟨2, h2⟩
  · rintro ⟨i, hi⟩
    split_ifs with h0 h1 h2
    · rfl
    · rfl
    · rfl
    · exfalso
      fin_cases i
      · exact h0 hi
      · exact h1 hi
      · exact h2 hi

/-- C3. `overlapsWith` applies the separating-axis test to the two world-frame surface
AABBs: the test is false exactly when on some axis `a.max[i] < b.min[i]` or
`a.min[i] > b.max[i]`, and true otherwise. `[0,1]³` against `[2,3]×[0,1]×[0,1]` gives
false, against `[0.5,1.5]³` true, and against the face-sharing `[1,2]×[0,1]×[0,1]` true. -/
theorem overlapsWith_axis_separation (ext : External G) (s other_submap : VoxgraphSubmap G)
    (a b : BoundingBox) :
    (overlapsAabb a b = false ↔
      ∃ i : Fin 3, a.max.coeff i < b.min.coeff i ∨ a.min.coeff i > b.max.coeff i) ∧
    (overlapsAabb a b = true ↔
      ¬ ∃ i : Fin 3, a.max.coeff i < b.min.coeff i ∨ a.min.coeff i > b.max.coeff i) ∧
    overlapsWith ext s other_submap =
      overlapsAabb (getWorldFrameSurfaceAabb ext s).1
        (getWorldFrameSurfaceAabb ext other_submap).1 ∧
    overlapsAabb unitBox farBox = false ∧
    overlapsAabb unitBox halfShiftedBox = true ∧
    overlapsAabb unitBox touchingBox = true := by
  refine ⟨overlapsAabb_eq_false_iff a b, ?_, rfl, by decide!, by decide!, by decide!⟩
  rw [← overlapsAabb_eq_false_iff]
  cases overlapsAabb a b <;> simp

/-! ## Lemmas on the bounding-box scans -/

theorem foldl_filter_eq {α β : Type} (p : α → Bool) (upd step : β → α → β)
    (hyes : ∀ acc a, p a = true → step acc a = upd acc a)
    (hno : ∀ acc a, p a = false → step acc a = acc) :
    ∀ (l : List α) (acc : β), l.foldl step acc = (l.filter p).foldl upd acc := by
  intro l
  induction l with
  | nil => intro acc; rfl
  | cons a l ih =>
    intro acc
    rw [List.foldl_cons, List.filter_cons]
    cases h : p a with
    | true => simp only [if_true, List.foldl_cons, hyes acc a h, ih]
    | false => simp only [Bool.false_eq_true, if_false, hno acc a h, ih]

theorem foldl_flatMap_eq {α γ β : Type} (upd : β → α → β) (F : γ → List α)
    (step : β → γ → β) (hstep : ∀ acc c, step acc c = (F c).foldl upd acc) :
    ∀ (l : List γ) (acc : β), l.foldl step acc = (l.flatMap F).foldl upd acc := by
  intro l
  induction l with
  | nil => intro acc; rfl
  | cons c l ih =>
    intro acc
    rw [List.foldl_cons, List.flatMap_cons, List.foldl_append, hstep, ih]

theorem foldl_min_le_init {α S : Type} [LinearOrder S] (f : α → S) :
    ∀ (l : List α) (m : S), l.foldl (fun m a => min m (f a)) m ≤ m := by
  intro l
  induction l with
  | nil => intro m; exact le_refl m
  | cons a l ih =>
    intro m
    exact le_trans (ih (min m (f a))) (min_le_left m (f a))

theorem foldl_min_le_mem {α S : Type} [LinearOrder S] (f : α → S) :
    ∀ (l : List α) (m : S) (a : α), a ∈ l → l.foldl (fun m a => min m (f a)) m ≤ f a := by
  intro l
  induction l with
  | nil => intro m a ha; exact absurd ha (List.not_mem_nil a)
  | cons b l ih =>
    intro m a ha
    rw [List.foldl_cons]
    rcases List.mem_cons.1 ha with rfl | ha
    · exact le_trans (foldl_min_le_init f l _) (min_le_right m (f a))
    · exact ih _ a ha

theorem foldl_min_attained {α S : Type} [LinearOrder S] (f : α → S) :
    ∀ (l : List α) (m : S), l.foldl (fun m a => min m (f a)) m = m ∨
      ∃ a ∈ l, l.foldl (fun m a => min m (f a)) m = f a := by
  intro l
  induction l with
  | nil => intro m; exact Or.inl rfl
  | cons b l ih =>
    intro m
    rw [List.foldl_cons]
    rcases ih (min m (f b)) with h | ⟨a, ha, h⟩
    · rcases min_choice m (f b) with hm | hm
      · exact Or.inl (by rw [h, hm])
      · exact Or.inr ⟨b, List.mem_cons_self b l, by rw [h, hm]⟩
    · exact Or.inr ⟨a, List.mem_cons_of_mem b ha, h⟩

theorem foldl_min_fixed {α S : Type} [LinearOrder S] (f : α → S) :
    ∀ (l : List α) (m : S), (∀ a ∈ l, m ≤ f a) → l.foldl (fun m a => min m (f a)) m = m := by
  intro l
  induction l with
  | nil => intro m _; rfl
  | cons b l ih =>
    intro m h
    rw [List.foldl_cons, min_eq_left (h b (List.mem_cons_self b l))]
    exact ih m (fun a ha => h a (List.mem_cons_of_mem b ha))

theorem foldl_max_ge_init {α S : Type} [LinearOrder S] (f : α → S) :
    ∀ (l : List α) (m : S), m ≤ l.foldl (fun m a => max m (f a)) m := by
  intro l
  induction l with
  | nil => intro m; exact le_refl m
  | cons a l ih =>
    intro m
    exact le_trans (le_max_left m (f a)) (ih (max m (f a)))

theorem foldl_max_ge_mem {α S : Type} [LinearOrder S] (f : α → S) :
    ∀ (l : List α) (m : S) (a : α), a ∈ l → f a ≤ l.foldl (fun m a => max m (f a)) m := by
  intro l
  induction l with
  | nil => intro m a ha; exact absurd ha (List.not_mem_nil a)
  | cons b l ih =>
    intro m a ha
    rw [List.foldl_cons]
    rcases List.mem_cons.1 ha with rfl | ha
    · exact le_trans (le_max_right m (f a)) (foldl_max_ge_init f l _)
    · exact ih _ a ha

theorem foldl_max_attained {α S : Type} [LinearOrder S] (f : α → S) :
    ∀ (l : List α) (m : S), l.foldl (fun m a => max m (f a)) m = m ∨
      ∃ a ∈ l, l.foldl (fun m a => max m (f a)) m = f a := by
  intro l
  induction l with
  | nil => intro m; exact Or.inl rfl
  | cons b l ih =>
    intro m
    rw [List.foldl_cons]
    rcases ih (max m (f b)) with h | ⟨a, ha, h⟩
    · rcases max_choice m (f b) with hm | hm
      · exact Or.inl (by rw [h, hm])
      · exact Or.inr ⟨b, List.mem_cons_self b l, by rw [h, hm]⟩
    · exact Or.inr ⟨a, List.mem_cons_of_mem b ha, h⟩

theorem foldl_max_fixed {α S : Type} [LinearOrder S] (f : α → S) :
    ∀ (l : List α) (m : S), (∀ a ∈ l, f a ≤ m) → l.foldl (fun m a => max m (f a)) m = m := by
  intro l
  induction l with
  | nil => intro m _; rfl
  | cons b l ih =>
    intro m h
    rw [List.foldl_cons, max_eq_left (h b (List.mem_cons_self b l))]
    exact ih m (fun a ha => h a (List.mem_cons_of_mem b ha))

theorem Vec3.ext_coeff {α : Type} (v w : Vec3 α) (h : ∀ i : Fin 3, v.coeff i = w.coeff i) :
    v = w := by
  cases v
  cases w
  have h0 := h 0
  have h1 := h 1
  have h2 := h 2
  simp only [Vec3.coeff] at h0 h1 h2
  rw [h0, h1, h2]

theorem cwiseMin_coeff (m : Vec3 Scalar) (p : Point) (i : Fin 3) :
    (cwiseMin m p).coeff i = min (m.coeff i) (Scalar.ofRat (p.coeff i)) := by
  fin_cases i <;> rfl

theorem cwiseMax_coeff (m : Vec3 Scalar) (p : Point) (i : Fin 3) :
    (cwiseMax m p).coeff i = max (m.coeff i) (Scalar.ofRat (p.coeff i)) := by
  fin_cases i <;> rfl

theorem expandAll_min_coeff {α : Type} (lo hi : α → Point) (i : Fin 3) :
    ∀ (l : List α) (box : BoundingBox),
      (box.expandAll lo hi l).min.coeff i =
        l.foldl (fun m a => min m (Scalar.ofRat ((lo a).coeff i))) (box.min.coeff i) := by
  intro l
  induction l with
  | nil => intro box; rfl
  | cons a l ih =>
    intro box
    show ((box.expand (lo a) (hi a)).expandAll lo hi l).min.coeff i = _
    rw [ih, List.foldl_cons]
    show List.foldl _ ((cwiseMin box.min (lo a)).coeff i) l = _
    rw [cwiseMin_coeff]

theorem expandAll_max_coeff {α : Type} (lo hi : α → Point) (i : Fin 3) :
    ∀ (l : List α) (box : BoundingBox),
      (box.expandAll lo hi l).max.coeff i =
        l.foldl (fun m a => max m (Scalar.ofRat ((hi a).coeff i))) (box.max.coeff i) := by
  intro l
  induction l with
  | nil => intro box; rfl
  | cons a l ih =>
    intro box
    show ((box.expand (lo a) (hi a)).expandAll lo hi l).max.coeff i = _
    rw [ih, List.foldl_cons]
    show List.foldl _ ((cwiseMax box.max (hi a)).coeff i) l = _
    rw [cwiseMax_coeff]

theorem expandAll_idem {α : Type} (lo hi : α → Point) (l : List α) (box : BoundingBox) :
    (box.expandAll lo hi l).expandAll lo hi l = box.expandAll lo hi l := by
  have hmin : ((box.expandAll lo hi l).expandAll lo hi l).min = (box.expandAll lo hi l).min := by
    apply Vec3.ext_coeff
    intro i
    rw [expandAll_min_coeff lo hi i l (box.expandAll lo hi l)]
    apply foldl_min_fixed
    intro a ha
    rw [expandAll_min_coeff lo hi i l box]
    exact foldl_min_le_mem (fun a => Scalar.ofRat ((lo a).coeff i)) l _ a ha
  have hmax : ((box.expandAll lo hi l).expandAll lo hi l).max = (box.expandAll lo hi l).max := by
    apply Vec3.ext_coeff
    intro i
    rw [expandAll_max_coeff lo hi i l (box.expandAll lo hi l)]
    apply foldl_max_fixed
    intro a ha
    rw [expandAll_max_coeff lo hi i l box]
    exact foldl_max_ge_mem (fun a => Scalar.ofRat ((hi a).coeff i)) l _ a ha
  cases h1 : (box.expandAll lo hi l).expandAll lo hi l with
  | mk mn mx =>
    cases h2 : box.expandAll lo hi l with
    | mk mn2 mx2 =>
      rw [h1, h2] at hmin hmax
      simp only at hmin hmax
      rw [hmin, hmax]

theorem Scalar.ofRat_le_ofRat (p q : ℚ) : Scalar.ofRat p ≤ Scalar.ofRat q ↔ p ≤ q := by
  unfold Scalar.ofRat
  rw [WithBot.coe_le_coe, WithTop.coe_le_coe]

theorem Scalar.posInf_not_le_ofRat (q : ℚ) : ¬ Scalar.posInf ≤ Scalar.ofRat q := by
  unfold Scalar.posInf Scalar.ofRat
  rw [WithBot.coe_le_coe]
  simp

theorem Scalar.ofRat_not_le_negInf (q : ℚ) : ¬ Scalar.ofRat q ≤ Scalar.negInf := by
  unfold Scalar.negInf Scalar.ofRat
  simp

theorem default_min_coeff (i : Fin 3) : ({} : BoundingBox).min.coeff i = Scalar.posInf := by
  fin_cases i <;> rfl

theorem default_max_coeff (i : Fin 3) : ({} : BoundingBox).max.coeff i = Scalar.negInf := by
  fin_cases i <;> rfl

theorem default_anyMinAboveMax : ({} : BoundingBox).anyMinAboveMax := by
  decide

theorem not_anyMinAboveMax_iff_valid (b : BoundingBox) : ¬ b.anyMinAboveMax ↔ b.valid := by
  unfold BoundingBox.anyMinAboveMax BoundingBox.valid
  constructor
  · intro h i
    simp only [not_or, not_lt, gt_iff_lt] at h
    fin_cases i
    · exact h.1
    · exact h.2.1
    · exact h.2.2
  · intro h
    have h0 := h 0
    have h1 := h 1
    have h2 := h 2
    simp only [Vec3.coeff] at h0 h1 h2
    simp only [not_or, not_lt, gt_iff_lt]
    exact ⟨h0, h1, h2⟩

theorem surfaceObbScan_eq (s : VoxgraphSubmap G) (box : BoundingBox) :
    surfaceObbScan s box =
      box.expandAll (voxelMinCorner s.tsdf_layer) (voxelMaxCorner s.tsdf_layer)
        (admittedVoxels s.registration_filter s.tsdf_layer) := by
  unfold surfaceObbScan BoundingBox.expandAll admittedVoxels allocatedVoxels
  simp only []
  rw [← foldl_filter_eq (fun v => decide (Admitted s.registration_filter s.tsdf_layer v))
    (fun b v => b.expand (voxelMinCorner s.tsdf_layer v) (voxelMaxCorner s.tsdf_layer v))
    (fun b v => surfaceObbVoxelBody s.registration_filter
      (Point.timesOnes (1 / 2 * s.tsdf_layer.voxel_size))
      (s.tsdf_layer.getBlockByIndex v.1) b v.2)]
  · apply foldl_flatMap_eq
    intro acc c
    unfold surfaceObbBlockBody
    simp only []
    rw [List.foldl_map]
  · intro acc v hv
    have hv' := of_decide_eq_true hv
    unfold Admitted tsdfVoxelAt at hv'
    unfold surfaceObbVoxelBody
    simp only [hv', and_self, if_true]
    rfl
  · intro acc v hv
    have hv' := of_decide_eq_false hv
    unfold Admitted tsdfVoxelAt at hv'
    unfold surfaceObbVoxelBody
    simp only [hv', if_false]

theorem submapObbScan_eq (ext : External G) (s : VoxgraphSubmap G) (box : BoundingBox) :
    submapObbScan ext s box =
      box.expandAll (blockMinCorner ext s.tsdf_layer) (blockMaxCorner ext s.tsdf_layer)
        s.tsdf_layer.getAllAllocatedBlocks := by
  rfl

theorem expandAll_default_bounds {α : Type} (lo hi : α → Point) (l : List α) (a : α)
    (ha : a ∈ l) (i : Fin 3) :
    (({} : BoundingBox).expandAll lo hi l).min.coeff i ≤ Scalar.ofRat ((lo a).coeff i) ∧
    Scalar.ofRat ((hi a).coeff i) ≤ (({} : BoundingBox).expandAll lo hi l).max.coeff i := by
  rw [expandAll_min_coeff, expandAll_max_coeff]
  exact ⟨foldl_min_le_mem (fun a => Scalar.ofRat ((lo a).coeff i)) l _ a ha,
    foldl_max_ge_mem (fun a => Scalar.ofRat ((hi a).coeff i)) l _ a ha⟩

theorem expandAll_default_attained {α : Type} (lo hi : α → Point) (l : List α)
    (hl : l ≠ []) (i : Fin 3) :
    (∃ a ∈ l, (({} : BoundingBox).expandAll lo hi l).min.coeff i =
      Scalar.ofRat ((lo a).coeff i)) ∧
    (∃ a ∈ l, (({} : BoundingBox).expandAll lo hi l).max.coeff i =
      Scalar.ofRat ((hi a).coeff i)) := by
  obtain ⟨b, hb⟩ := List.exists_mem_of_ne_nil l hl
  have hbnd := expandAll_default_bounds lo hi l b hb i
  rw [expandAll_min_coeff, expandAll_max_coeff] at hbnd ⊢
  constructor
  · rcases foldl_min_attained (fun a => Scalar.ofRat ((lo a).coeff i)) l
      (({} : BoundingBox).min.coeff i) with h | h
    · rw [h, default_min_coeff] at hbnd
      exact absurd hbnd.1 (Scalar.posInf_not_le_ofRat _)
    · exact h
  · rcases foldl_max_attained (fun a => Scalar.ofRat ((hi a).coeff i)) l
      (({} : BoundingBox).max.coeff i) with h | h
    · rw [h, default_max_coeff] at hbnd
      exact absurd hbnd.2 (Scalar.ofRat_not_le_negInf _)
    · exact h

theorem getSubmapFrameSurfaceObb_of_unset (s : VoxgraphSubmap G) (h : s.surface_obb_ = {}) :
    getSubmapFrameSurfaceObb s =
      (({} : BoundingBox).expandAll (voxelMinCorner s.tsdf_layer)
          (voxelMaxCorner s.tsdf_layer) (admittedVoxels s.registration_filter s.tsdf_layer),
        { s with surface_obb_ := (({} : BoundingBox).expandAll (voxelMinCorner s.tsdf_layer)
            (voxelMaxCorner s.tsdf_layer)
            (admittedVoxels s.registration_filter s.tsdf_layer)) }) := by
  unfold getSubmapFrameSurfaceObb
  rw [h, if_pos default_anyMinAboveMax]
  simp only [surfaceObbScan_eq]

theorem getSubmapFrameSubmapObb_of_unset (ext : External G) (s : VoxgraphSubmap G)
    (h : s.map_obb_ = {}) :
    getSubmapFrameSubmapObb ext s =
      (({} : BoundingBox).expandAll (blockMinCorner ext s.tsdf_layer)
          (blockMaxCorner ext s.tsdf_layer) s.tsdf_layer.getAllAllocatedBlocks,
        { s with map_obb_ := (({} : BoundingBox).expandAll (blockMinCorner ext s.tsdf_layer)
            (blockMaxCorner ext s.tsdf_layer) s.tsdf_layer.getAllAllocatedBlocks) }) := by
  unfold getSubmapFrameSubmapObb
  rw [h, if_pos default_anyMinAboveMax]
  simp only [submapObbScan_eq]

/-- C6. Called with the cached full-volume box in the unset sentinel state,
`getSubmapFrameSubmapObb` stores the box it returns; on every axis its `min` is below
`center − half block` and its `max` above `center + half block` of every allocated block,
both are attained by some allocated block when there is one; with no allocated block the
box stays unset; and the box is the same for every submap with the same allocated
blocks and block size, whatever its voxels and its registration filter are. -/
theorem getSubmapFrameSubmapObb_unset (ext : External G) (s : VoxgraphSubmap G)
    (h : s.map_obb_ = {}) :
    (getSubmapFrameSubmapObb ext s).2 =
      { s with map_obb_ := (getSubmapFrameSubmapObb ext s).1 } ∧
    (∀ b ∈ s.tsdf_layer.getAllAllocatedBlocks, ∀ i : Fin 3,
      (getSubmapFrameSubmapObb ext s).1.min.coeff i ≤
        Scalar.ofRat ((blockMinCorner ext s.tsdf_layer b).coeff i) ∧
      Scalar.ofRat ((blockMaxCorner ext s.tsdf_layer b).coeff i) ≤
        (getSubmapFrameSubmapObb ext s).1.max.coeff i) ∧
    (s.tsdf_layer.getAllAllocatedBlocks ≠ [] → ∀ i : Fin 3,
      (∃ b ∈ s.tsdf_layer.getAllAllocatedBlocks,
        (getSubmapFrameSubmapObb ext s).1.min.coeff i =
          Scalar.ofRat ((blockMinCorner ext s.tsdf_layer b).coeff i)) ∧
      (∃ b ∈ s.tsdf_layer.getAllAllocatedBlocks,
        (getSubmapFrameSubmapObb ext s).1.max.coeff i =
          Scalar.ofRat ((blockMaxCorner ext s.tsdf_layer b).coeff i))) ∧
    (s.tsdf_layer.getAllAllocatedBlocks = [] → (getSubmapFrameSubmapObb ext s).1 = {}) ∧
    (∀ t : VoxgraphSubmap G, t.map_obb_ = {} →
      t.tsdf_layer.getAllAllocatedBlocks = s.tsdf_layer.getAllAllocatedBlocks →
      t.tsdf_layer.block_size = s.tsdf_layer.block_size →
      (getSubmapFrameSubmapObb ext t).1 = (getSubmapFrameSubmapObb ext s).1) := by
  rw [getSubmapFrameSubmapObb_of_unset ext s h]
  refine ⟨rfl, ?_, ?_, ?_, ?_⟩
  · intro b hb i
    exact expandAll_default_bounds _ _ _ b hb i
  · intro hne i
    exact expandAll_default_attained _ _ _ hne i
  · intro hnil
    simp only [hnil]
    rfl
  · intro t ht hblocks hsize
    rw [getSubmapFrameSubmapObb_of_unset ext t ht]
    unfold blockMinCorner blockMaxCorner
    simp only [hblocks, hsize]

/-- On `exampleSubmap`, whose full-volume box is unset, the accessor returns `[0,2]³`,
and so it does with the filter of `exampleSubmapStrict`. -/
theorem getSubmapFrameSubmapObb_unset_witness :
    exampleSubmap.map_obb_ = {} ∧
    (getSubmapFrameSubmapObb exampleExternal exampleSubmap).1 = exampleMapObb ∧
    (getSubmapFrameSubmapObb exampleExternal exampleSubmapStrict).1 =
      (getSubmapFrameSubmapObb exampleExternal exampleSubmap).1 :=
  ⟨rfl, by decide!,
    (getSubmapFrameSubmapObb_unset exampleExternal exampleSubmap rfl).2.2.2.2
      exampleSubmapStrict rfl rfl rfl⟩

/-! ## Cache contract of the two box accessors -/

theorem getSubmapFrameSurfaceObb_of_valid (s : VoxgraphSubmap G)
    (h : ¬ s.surface_obb_.anyMinAboveMax) :
    getSubmapFrameSurfaceObb s = (s.surface_obb_, s) := by
  unfold getSubmapFrameSurfaceObb
  rw [if_neg h]

theorem getSubmapFrameSubmapObb_of_valid (ext : External G) (s : VoxgraphSubmap G)
    (h : ¬ s.map_obb_.anyMinAboveMax) :
    getSubmapFrameSubmapObb ext s = (s.map_obb_, s) := by
  unfold getSubmapFrameSubmapObb
  rw [if_neg h]

theorem anyMinAboveMax_iff_exists (b : BoundingBox) :
    b.anyMinAboveMax ↔ ∃ i : Fin 3, b.min.coeff i > b.max.coeff i := by
  unfold BoundingBox.anyMinAboveMax
  constructor
  · rintro (h | h | h)
    · exact ⟨0, h⟩
    · exact ⟨1, h⟩
    · exact ⟨2, h⟩
  · rintro ⟨i, hi⟩
    fin_cases i
    · exact Or.inl hi
    · exact Or.inr (Or.inl hi)
    · exact Or.inr (Or.inr hi)

theorem getSubmapFrameSurfaceObb_twice (s : VoxgraphSubmap G) :
    (getSubmapFrameSurfaceObb (getSubmapFrameSurfaceObb s).2).1 =
      (getSubmapFrameSurfaceObb s).1 := by
  by_cases h : s.surface_obb_.anyMinAboveMax
  · have h1 : getSubmapFrameSurfaceObb s =
        (surfaceObbScan s s.surface_obb_,
          { s with surface_obb_ := surfaceObbScan s s.surface_obb_ }) := by
      unfold getSubmapFrameSurfaceObb
      rw [if_pos h]
    rw [h1]
    simp only []
    by_cases h2 : (surfaceObbScan s s.surface_obb_).anyMinAboveMax
    · unfold getSubmapFrameSurfaceObb
      simp only [if_pos h2]
      rw [surfaceObbScan_eq, surfaceObbScan_eq]
      exact expandAll_idem _ _ _ _
    · rw [getSubmapFrameSurfaceObb_of_valid _ h2]
  · rw [getSubmapFrameSurfaceObb_of_valid s h, getSubmapFrameSurfaceObb_of_valid s h]

theorem getSubmapFrameSubmapObb_twice (ext : External G) (s : VoxgraphSubmap G) :
    (getSubmapFrameSubmapObb ext (getSubmapFrameSubmapObb ext s).2).1 =
      (getSubmapFrameSubmapObb ext s).1 := by
  by_cases h : s.map_obb_.anyMinAboveMax
  · have h1 : getSubmapFrameSubmapObb ext s =
        (submapObbScan ext s s.map_obb_,
          { s with map_obb_ := submapObbScan ext s s.map_obb_ }) := by
      unfold getSubmapFrameSubmapObb
      rw [if_pos h]
    rw [h1]
    simp only []
    by_cases h2 : (submapObbScan ext s s.map_obb_).anyMinAboveMax
    · unfold getSubmapFrameSubmapObb
      simp only [if_pos h2]
      rw [submapObbScan_eq, submapObbScan_eq]
      exact expandAll_idem _ _ _ _
    · rw [getSubmapFrameSubmapObb_of_valid _ _ h2]
  · rw [getSubmapFrameSubmapObb_of_valid ext s h, getSubmapFrameSubmapObb_of_valid ext s h]

/-- C7. Each of the two box accessors returns the stored box and leaves the submap as it
is when the stored box is valid (`min ≤ max` on every axis), for every voxel data and
filter config; the result differs from that only when some coefficient of `min` exceeds
the one of `max`; and a second call right after the first returns the same box. -/
theorem box_accessors_lazy (ext : External G) (s : VoxgraphSubmap G) :
    (s.surface_obb_.valid → getSubmapFrameSurfaceObb s = (s.surface_obb_, s)) ∧
    (s.map_obb_.valid → getSubmapFrameSubmapObb ext s = (s.map_obb_, s)) ∧
    (getSubmapFrameSurfaceObb s ≠ (s.surface_obb_, s) →
      ∃ i : Fin 3, s.surface_obb_.min.coeff i > s.surface_obb_.max.coeff i) ∧
    (getSubmapFrameSubmapObb ext s ≠ (s.map_obb_, s) →
      ∃ i : Fin 3, s.map_obb_.min.coeff i > s.map_obb_.max.coeff i) ∧
    (getSubmapFrameSurfaceObb (getSubmapFrameSurfaceObb s).2).1 =
      (getSubmapFrameSurfaceObb s).1 ∧
    (getSubmapFrameSubmapObb ext (getSubmapFrameSubmapObb ext s).2).1 =
      (getSubmapFrameSubmapObb ext s).1 := by
  refine ⟨?_, ?_, ?_, ?_, getSubmapFrameSurfaceObb_twice s,
    getSubmapFrameSubmapObb_twice ext s⟩
  · intro hv
    exact getSubmapFrameSurfaceObb_of_valid s ((not_anyMinAboveMax_iff_valid _).2 hv)
  · intro hv
    exact getSubmapFrameSubmapObb_of_valid ext s ((not_anyMinAboveMax_iff_valid _).2 hv)
  · intro hne
    rw [← anyMinAboveMax_iff_exists]
    by_contra hc
    exact hne (getSubmapFrameSurfaceObb_of_valid s hc)
  · intro hne
    rw [← anyMinAboveMax_iff_exists]
    by_contra hc
    exact hne (getSubmapFrameSubmapObb_of_valid ext s hc)

/-- On `exampleReconfigured` the cached surface box is valid and is returned as it is,
although a scan from the unset box would give another box. -/
theorem box_accessors_lazy_witness :
    exampleReconfigured.surface_obb_.valid ∧
    getSubmapFrameSurfaceObb exampleReconfigured =
      (exampleSurfaceObb, exampleReconfigured) ∧
    surfaceObbScan exampleReconfigured {} ≠ exampleSurfaceObb :=
  ⟨by decide!,
    (box_accessors_lazy exampleExternal exampleReconfigured).1 (by decide!),
    by decide!⟩

theorem admittedVoxels_of_no_blocks (filter : RegistrationFilter) (tsdf_layer : TsdfLayer)
    (h : tsdf_layer.getAllAllocatedBlocks = []) : admittedVoxels filter tsdf_layer = [] := by
  unfold admittedVoxels allocatedVoxels
  rw [h]
  rfl

theorem with_surface_obb_self (s : VoxgraphSubmap G) (b : BoundingBox)
    (h : s.surface_obb_ = b) : { s with surface_obb_ := b } = s := by
  subst h
  rfl

theorem with_map_obb_self (s : VoxgraphSubmap G) (b : BoundingBox)
    (h : s.map_obb_ = b) : { s with map_obb_ := b } = s := by
  subst h
  rfl

/-- C8. For a submap whose two boxes are in the default state: with no allocated block
both accessors return the unset sentinel box and leave the submap as it is, and so does
the surface accessor when no voxel passes the filter; the sentinel has `min = +∞` and
`max = −∞` on every axis, which violates `min ≤ max`. The accessors are total. -/
theorem box_accessors_keep_sentinel (ext : External G) (s : VoxgraphSubmap G)
    (hs : s.surface_obb_ = {}) (hm : s.map_obb_ = {}) :
    (s.tsdf_layer.getAllAllocatedBlocks = [] →
      getSubmapFrameSurfaceObb s = ({}, s) ∧ getSubmapFrameSubmapObb ext s = ({}, s)) ∧
    (admittedVoxels s.registration_filter s.tsdf_layer = [] →
      getSubmapFrameSurfaceObb s = ({}, s)) ∧
    (∀ i : Fin 3, ({} : BoundingBox).min.coeff i = Scalar.posInf ∧
      ({} : BoundingBox).max.coeff i = Scalar.negInf ∧
      ¬ ({} : BoundingBox).min.coeff i ≤ ({} : BoundingBox).max.coeff i) := by
  have hsurf : admittedVoxels s.registration_filter s.tsdf_layer = [] →
      getSubmapFrameSurfaceObb s = ({}, s) := by
    intro hnil
    rw [getSubmapFrameSurfaceObb_of_unset s hs, hnil]
    simp only [BoundingBox.expandAll, List.foldl_nil]
    rw [with_surface_obb_self s {} hs]
  refine ⟨?_, hsurf, ?_⟩
  · intro hnil
    refine ⟨hsurf (admittedVoxels_of_no_blocks _ _ hnil), ?_⟩
    rw [getSubmapFrameSubmapObb_of_unset ext s hm, hnil]
    simp only [BoundingBox.expandAll, List.foldl_nil]
    rw [with_map_obb_self s {} hm]
  · intro i
    refine ⟨default_min_coeff i, default_max_coeff i, ?_⟩
    fin_cases i <;> decide

/-- On `emptySubmap` both accessors return the unset box and change nothing, and so
does the surface accessor on `exampleSubmapStrict`, where no voxel passes the filter. -/
theorem box_accessors_keep_sentinel_witness :
    emptySubmap.surface_obb_ = {} ∧ emptySubmap.map_obb_ = {} ∧
    emptySubmap.tsdf_layer.getAllAllocatedBlocks = [] ∧
    (getSubmapFrameSurfaceObb emptySubmap = ({}, emptySubmap) ∧
      getSubmapFrameSubmapObb exampleExternal emptySubmap = ({}, emptySubmap)) ∧
    admittedVoxels exampleSubmapStrict.registration_filter exampleSubmapStrict.tsdf_layer =
      [] ∧
    getSubmapFrameSurfaceObb exampleSubmapStrict = ({}, exampleSubmapStrict) :=
  ⟨rfl, rfl, rfl, (box_accessors_keep_sentinel exampleExternal emptySubmap rfl rfl).1 rfl,
    by decide!,
    (box_accessors_keep_sentinel exampleExternal exampleSubmapStrict rfl rfl).2.1
      (by decide!)⟩

/-! ## Registration point query -/

/-- C10. `getRegistrationPoints` aborts exactly when `finished_` is false, for both
registration point types, so an unfinished submap never yields a sampler, empty or not;
on a finished submap it returns the voxel sampler for `kVoxels` and the isosurface
vertex sampler for `kIsosurfacePoints`. It reads the state and returns no new state. -/
theorem getRegistrationPoints_fails_iff_unfinished (s : VoxgraphSubmap G)
    (registration_point_type : RegistrationPointType) :
    (getRegistrationPoints s registration_point_type = none ↔ s.finished_ = false) ∧
    (s.finished_ = false →
      ∀ sampler, getRegistrationPoints s registration_point_type ≠ some sampler) ∧
    (s.finished_ = true →
      getRegistrationPoints s RegistrationPointType.kVoxels = some s.relevant_voxels_ ∧
      getRegistrationPoints s RegistrationPointType.kIsosurfacePoints =
        some s.isosurface_vertices_) := by
  unfold getRegistrationPoints
  cases hf : s.finished_ <;> cases registration_point_type <;> simp

/-! ## `finishSubmap` and `transformSubmap` -/

theorem getSubmapFrameSurfaceObb_snd (s : VoxgraphSubmap G) :
    (getSubmapFrameSurfaceObb s).2 =
      { s with surface_obb_ := (getSubmapFrameSurfaceObb s).1 } := by
  unfold getSubmapFrameSurfaceObb
  split_ifs <;> rfl

theorem getSubmapFrameSubmapObb_snd (ext : External G) (s : VoxgraphSubmap G) :
    (getSubmapFrameSubmapObb ext s).2 =
      { s with map_obb_ := (getSubmapFrameSubmapObb ext s).1 } := by
  unfold getSubmapFrameSubmapObb
  split_ifs <;> rfl

theorem getSubmapFrameSurfaceObb_congr (s t : VoxgraphSubmap G)
    (h1 : t.surface_obb_ = s.surface_obb_) (h2 : t.tsdf_layer = s.tsdf_layer)
    (h3 : t.registration_filter = s.registration_filter) :
    (getSubmapFrameSurfaceObb t).1 = (getSubmapFrameSurfaceObb s).1 := by
  unfold getSubmapFrameSurfaceObb
  simp only [surfaceObbScan_eq, h1, h2, h3]
  split_ifs <;> rfl

theorem getSubmapFrameSubmapObb_congr (ext : External G) (s t : VoxgraphSubmap G)
    (h1 : t.map_obb_ = s.map_obb_) (h2 : t.tsdf_layer = s.tsdf_layer) :
    (getSubmapFrameSubmapObb ext t).1 = (getSubmapFrameSubmapObb ext s).1 := by
  unfold getSubmapFrameSubmapObb
  simp only [submapObbScan_eq, h1, h2]
  split_ifs <;> rfl

theorem registrationItem_congr (s t : VoxgraphSubmap G)
    (h1 : t.tsdf_layer = s.tsdf_layer) (h2 : t.esdf_layer = s.esdf_layer)
    (h3 : t.registration_filter = s.registration_filter) :
    registrationItem t = registrationItem s := by
  funext v
  unfold registrationItem recordedDistance
  rw [h1, h2, h3]

theorem relevant_voxels_of_find (s : VoxgraphSubmap G) :
    (findRelevantVoxelIndices s).map (fun r => r.relevant_voxels_) =
      (collectItems (registrationItem s)
        (admittedVoxels s.registration_filter s.tsdf_layer)).map WeightedSampler.mk := by
  rw [findRelevantVoxelIndices_eq, Option.map_map]
  rfl

theorem relevant_voxels_congr (s t : VoxgraphSubmap G)
    (h1 : t.tsdf_layer = s.tsdf_layer) (h2 : t.esdf_layer = s.esdf_layer)
    (h3 : t.registration_filter = s.registration_filter) :
    (findRelevantVoxelIndices t).map (fun r => r.relevant_voxels_) =
      (findRelevantVoxelIndices s).map (fun r => r.relevant_voxels_) := by
  rw [relevant_voxels_of_find, relevant_voxels_of_find,
    registrationItem_congr s t h1 h2 h3, h1, h3]

theorem isosurface_vertices_of_find (ext : External G) (s : VoxgraphSubmap G) :
    (findIsosurfaceVertices ext s).map (fun r => r.isosurface_vertices_) =
      (ext.connectedMeshVertices s.tsdf_layer s.registration_filter.min_voxel_weight).foldlM
        (isosurfaceVertexBody ext s.tsdf_layer) ⟨[]⟩ := by
  unfold findIsosurfaceVertices WeightedSampler.clear
  simp only []
  cases List.foldlM (isosurfaceVertexBody ext s.tsdf_layer) ⟨[]⟩
    (ext.connectedMeshVertices s.tsdf_layer s.registration_filter.min_voxel_weight) <;> rfl

theorem isosurface_vertices_congr (ext : External G) (s t : VoxgraphSubmap G)
    (h1 : t.tsdf_layer = s.tsdf_layer)
    (h3 : t.registration_filter = s.registration_filter) :
    (findIsosurfaceVertices ext t).map (fun r => r.isosurface_vertices_) =
      (findIsosurfaceVertices ext s).map (fun r => r.isosurface_vertices_) := by
  rw [isosurface_vertices_of_find, isosurface_vertices_of_find, h1, h3]

theorem findRelevantVoxelIndices_frame (s s' : VoxgraphSubmap G)
    (h : findRelevantVoxelIndices s = some s') :
    s' = { s with relevant_voxels_ := s'.relevant_voxels_ } := by
  rw [findRelevantVoxelIndices_eq] at h
  cases hc : collectItems (registrationItem s)
      (admittedVoxels s.registration_filter s.tsdf_layer) with
  | none => simp [hc] at h
  | some items =>
    simp only [hc, Option.map_some', Option.some.injEq] at h
    subst h
    rfl

theorem findIsosurfaceVertices_frame (ext : External G) (s s' : VoxgraphSubmap G)
    (h : findIsosurfaceVertices ext s = some s') :
    s' = { s with isosurface_vertices_ := s'.isosurface_vertices_ } := by
  unfold findIsosurfaceVertices at h
  simp only [] at h
  split at h
  · simp at h
  · simp only [Option.some.injEq] at h
    subst h
    rfl

/-- What `finishSubmap` leaves behind when it returns. -/
theorem finishSubmap_eq_some (ext : External G) (s s' : VoxgraphSubmap G)
    (h : finishSubmap ext s = some s') :
    s'.pose = s.pose ∧ s'.pose_history_ = s.pose_history_ ∧
    s'.tsdf_layer = s.tsdf_layer ∧
    s'.registration_filter = s.registration_filter ∧
    s'.esdf_layer = ext.generateEsdf s.tsdf_layer s.esdf_layer ∧
    s'.finished_ = true ∧
    s'.surface_obb_ = (getSubmapFrameSurfaceObb s).1 ∧
    s'.map_obb_ = (getSubmapFrameSubmapObb ext s).1 ∧
    (findRelevantVoxelIndices s').map (fun r => r.relevant_voxels_) =
      some s'.relevant_voxels_ ∧
    (findIsosurfaceVertices ext s').map (fun r => r.isosurface_vertices_) =
      some s'.isosurface_vertices_ := by
  unfold finishSubmap at h
  simp only [] at h
  generalize hs1 : ({ s with esdf_layer := ext.generateEsdf s.tsdf_layer s.esdf_layer } :
    VoxgraphSubmap G) = s1 at h
  have e2 := getSubmapFrameSubmapObb_snd ext s1
  have e3 := getSubmapFrameSurfaceObb_snd (getSubmapFrameSubmapObb ext s1).2
  generalize hs2 : (getSubmapFrameSubmapObb ext s1).2 = s2 at h e2 e3
  generalize hs3 : (getSubmapFrameSurfaceObb s2).2 = s3 at h e3
  cases h4 : findRelevantVoxelIndices s3 with
  | none => simp [h4] at h
  | some s4 =>
    cases h5 : findIsosurfaceVertices ext s4 with
    | none => simp [h4, h5] at h
    | some s5 =>
      simp only [h4, h5, Option.some.injEq] at h
      have e4 := findRelevantVoxelIndices_frame s3 s4 h4
      have e5 := findIsosurfaceVertices_frame ext s4 s5 h5
      have hr := relevant_voxels_congr s3 s' (by rw [← h, e5, e4]) (by rw [← h, e5, e4])
        (by rw [← h, e5, e4])
      have hi := isosurface_vertices_congr ext s4 s' (by rw [← h, e5]) (by rw [← h, e5])
      rw [h4] at hr
      rw [h5] at hi
      have hsurf : (getSubmapFrameSurfaceObb s2).1 = (getSubmapFrameSurfaceObb s).1 :=
        getSubmapFrameSurfaceObb_congr s s2 (by rw [e2, ← hs1]) (by rw [e2, ← hs1])
          (by rw [e2, ← hs1])
      have hmap : (getSubmapFrameSubmapObb ext s1).1 = (getSubmapFrameSubmapObb ext s).1 :=
        getSubmapFrameSubmapObb_congr ext s s1 (by rw [← hs1]) (by rw [← hs1])
      refine ⟨?_, ?_, ?_, ?_, ?_, ?_, ?_, ?_, ?_, ?_⟩
      · rw [← h, e5, e4, e3, e2, ← hs1]
      · rw [← h, e5, e4, e3, e2, ← hs1]
      · rw [← h, e5, e4, e3, e2, ← hs1]
      · rw [← h, e5, e4, e3, e2, ← hs1]
      · rw [← h, e5, e4, e3, e2, ← hs1]
      · rw [← h]
      · rw [← hsurf, ← h, e5, e4, e3]
      · rw [← hmap, ← h, e5, e4, e3, e2]
      · rw [hr, ← h, e5]
        rfl
      · rw [hi, ← h]
        rfl

/-- C4. Whenever `transformSubmap` returns, the pose history has the timestamps it had
before, in the same order, every entry is `T_new_old * old_entry`, and the pose of the
submap is `old_pose * T_new_old⁻¹`. -/
theorem transformSubmap_poses [Group G] (ext : External G) (s s' : VoxgraphSubmap G)
    (T_new_old : G) (h : transformSubmap ext s T_new_old = some s') :
    s'.pose_history_.map Prod.fst = s.pose_history_.map Prod.fst ∧
    List.Forall₂ (fun (old_entry new_entry : Time × G) =>
        new_entry.1 = old_entry.1 ∧ new_entry.2 = T_new_old * old_entry.2)
      s.pose_history_ s'.pose_history_ ∧
    s'.pose = s.pose * T_new_old⁻¹ := by
  unfold transformSubmap at h
  obtain ⟨hpose, hhist, -⟩ := finishSubmap_eq_some ext _ s' h
  simp only [] at hpose hhist
  refine ⟨?_, ?_, hpose⟩
  · rw [hhist, List.map_map]
    rfl
  · rw [hhist, List.forall₂_map_right_iff]
    exact List.forall₂_same.2 (fun _ _ => ⟨rfl, rfl⟩)

/-- On `examplePosed` the call with the transformation `2` returns
`exampleTransformed`: same timestamps, pose `7 * 2⁻¹`. -/
theorem transformSubmap_poses_witness :
    transformSubmap exampleExternal examplePosed (Multiplicative.ofAdd 2) =
      some exampleTransformed ∧
    exampleTransformed.pose_history_.map Prod.fst = examplePosed.pose_history_.map Prod.fst ∧
    exampleTransformed.pose = examplePosed.pose * (Multiplicative.ofAdd 2)⁻¹ :=
  ⟨by with_unfolding_all rfl,
    (transformSubmap_poses exampleExternal examplePosed exampleTransformed
      (Multiplicative.ofAdd 2) (by with_unfolding_all rfl)).1,
    (transformSubmap_poses exampleExternal examplePosed exampleTransformed
      (Multiplicative.ofAdd 2) (by with_unfolding_all rfl)).2.2⟩

/-- What `finishSubmap` does recompute. Whenever it returns, the volumetric data and the
filter config are the ones of the call (with the ESDF regenerated), both samplers are
what the extractions give on every submap with that data and config, whatever its
samplers held, and each cached box that was in the unset sentinel state at the call is
what its accessor computes from the reset cache. -/
theorem finishSubmap_recomputes (ext : External G) (s s' : VoxgraphSubmap G)
    (h : finishSubmap ext s = some s') :
    s'.tsdf_layer = s.tsdf_layer ∧
    s'.registration_filter = s.registration_filter ∧
    s'.esdf_layer = ext.generateEsdf s.tsdf_layer s.esdf_layer ∧
    (∀ t : VoxgraphSubmap G, t.tsdf_layer = s'.tsdf_layer → t.esdf_layer = s'.esdf_layer →
      t.registration_filter = s'.registration_filter →
      (findRelevantVoxelIndices t).map (fun r => r.relevant_voxels_) =
        some s'.relevant_voxels_) ∧
    (∀ t : VoxgraphSubmap G, t.tsdf_layer = s'.tsdf_layer →
      t.registration_filter = s'.registration_filter →
      (findIsosurfaceVertices ext t).map (fun r => r.isosurface_vertices_) =
        some s'.isosurface_vertices_) ∧
    (s.surface_obb_ = {} → s'.surface_obb_ = freshSurfaceObb s') ∧
    (s.map_obb_ = {} → s'.map_obb_ = freshSubmapObb ext s') := by
  obtain ⟨-, -, h1, h2, h3, -, h4, h5, h6, h7⟩ := finishSubmap_eq_some ext s s' h
  refine ⟨h1, h2, h3, ?_, ?_, ?_, ?_⟩
  · intro t ht1 ht2 ht3
    rw [relevant_voxels_congr s' t ht1 ht2 ht3, h6]
  · intro t ht1 ht3
    rw [isosurface_vertices_congr ext s' t ht1 ht3, h7]
  · intro hs
    rw [h4]
    unfold freshSurfaceObb
    exact (getSubmapFrameSurfaceObb_congr s { s' with surface_obb_ := s'.surface_obb_.reset }
      (by rw [hs]; rfl) h1 h2).symm
  · intro hm
    rw [h5]
    unfold freshSubmapObb
    exact (getSubmapFrameSubmapObb_congr ext s { s' with map_obb_ := s'.map_obb_.reset }
      (by rw [hm]; rfl) h1).symm

/-- On the newly constructed `exampleSubmap` the call returns `exampleFinished`, whose
two boxes are the from-scratch ones. -/
theorem finishSubmap_recomputes_witness :
    finishSubmap exampleExternal exampleSubmap = some exampleFinished ∧
    exampleFinished.surface_obb_ = freshSurfaceObb exampleFinished ∧
    exampleFinished.map_obb_ = freshSubmapObb exampleExternal exampleFinished :=
  ⟨by with_unfolding_all rfl,
    (finishSubmap_recomputes exampleExternal exampleSubmap exampleFinished
      (by with_unfolding_all rfl)).2.2.2.2.2.1 rfl,
    (finishSubmap_recomputes exampleExternal exampleSubmap exampleFinished
      (by with_unfolding_all rfl)).2.2.2.2.2.2 rfl⟩

/-- C9, evaluated on the code. `finishSubmap` on `exampleSubmap` gives `exampleFinished`;
after `setRegistrationFilterConfig` raised `min_voxel_weight` to 2, a second
`finishSubmap` returns `exampleRefinished`, whose voxel sampler is recomputed (voxel 4
only) but whose surface box is still `[0,1]×[0,1]×[0,2]`, while the from-scratch box is
`[0,1]×[0,1]×[1,2]`: `setRegistrationFilterConfig` does not reset the cached box. On the
same submap `transformSubmap`, which resets the boxes first, leaves the from-scratch box. -/
theorem finishSubmap_keeps_stale_surface_box :
    finishSubmap exampleExternal exampleSubmap = some exampleFinished ∧
    exampleReconfigured = setRegistrationFilterConfig exampleFinished ⟨2, 1, false⟩ ∧
    finishSubmap exampleExternal exampleReconfigured = some exampleRefinished ∧
    exampleRefinished.surface_obb_ = exampleSurfaceObb ∧
    freshSurfaceObb exampleRefinished = exampleTightObb ∧
    exampleRefinished.surface_obb_ ≠ freshSurfaceObb exampleRefinished ∧
    (transformSubmap exampleExternal exampleReconfigured 1).map (fun r => r.surface_obb_) =
      some exampleTightObb :=
  ⟨by with_unfolding_all rfl, rfl, by with_unfolding_all rfl, rfl, by decide!, by decide!,
    by decide!⟩

/-! ## Pose history -/

theorem mem_keys_mapEmplace (m : List (Time × G)) (t : Time) (v : G) (k : Time) :
    k ∈ (mapEmplace m t v).map Prod.fst ↔ k ∈ m.map Prod.fst ∨ k = t := by
  induction m with
  | nil => simp [mapEmplace]
  | cons kv rest ih =>
    unfold mapEmplace
    split_ifs with h1 h2
    · simp only [List.map_cons, List.mem_cons]
      tauto
    · simp only [List.map_cons, List.mem_cons]
      constructor
      · intro h; exact Or.inl h
      · rintro (h | h)
        · exact h
        · exact Or.inl (h.trans h2)
    · simp only [List.map_cons, List.mem_cons, ih]
      tauto

theorem mem_mapEmplace_fst (m : List (Time × G)) (t : Time) (v : G) (kv : Time × G)
    (h : kv ∈ mapEmplace m t v) : kv.1 ∈ m.map Prod.fst ∨ kv.1 = t := by
  rw [← mem_keys_mapEmplace m t v]
  exact List.mem_map_of_mem Prod.fst h

theorem historyOrdered_mapEmplace (m : List (Time × G)) (t : Time) (v : G)
    (h : historyOrdered m) : historyOrdered (mapEmplace m t v) := by
  unfold historyOrdered at h ⊢
  induction m with
  | nil => simp [mapEmplace]
  | cons kv rest ih =>
    rw [List.pairwise_cons] at h
    unfold mapEmplace
    split_ifs with h1 h2
    · rw [List.pairwise_cons]
      refine ⟨?_, List.pairwise_cons.2 h⟩
      intro b hb
      rcases List.mem_cons.1 hb with rfl | hb
      · exact h1
      · exact lt_trans h1 (h.1 b hb)
    · exact List.pairwise_cons.2 h
    · rw [List.pairwise_cons]
      refine ⟨?_, ih h.2⟩
      intro b hb
      rcases mem_mapEmplace_fst rest t v b hb with hk | hk
      · obtain ⟨c, hc, hcb⟩ := List.mem_map.1 hk
        rw [← hcb]
        exact h.1 c hc
      · rw [hk]
        exact lt_of_le_of_ne (not_lt.1 h1) (fun e => h2 e.symm)

theorem mapEmplace_of_present (m : List (Time × G)) (t : Time) (v : G)
    (hord : historyOrdered m) (h : t ∈ m.map Prod.fst) : mapEmplace m t v = m := by
  unfold historyOrdered at hord
  induction m with
  | nil => simp at h
  | cons kv rest ih =>
    rw [List.pairwise_cons] at hord
    unfold mapEmplace
    split_ifs with h1 h2
    · exfalso
      simp only [List.map_cons, List.mem_cons] at h
      rcases h with h | h
      · rw [h] at h1
        exact lt_irrefl _ h1
      · obtain ⟨c, hc, hct⟩ := List.mem_map.1 h
        have := hord.1 c hc
        rw [hct] at this
        exact lt_irrefl _ (lt_trans h1 this)
    · rfl
    · simp only [List.map_cons, List.mem_cons] at h
      rcases h with h | h
      · exact absurd h h2
      · rw [ih hord.2 h]

theorem historyAt_eq_none_iff (m : List (Time × G)) (t : Time) :
    historyAt m t = none ↔ t ∉ m.map Prod.fst := by
  induction m with
  | nil => simp [historyAt]
  | cons kv rest ih =>
    unfold historyAt
    split_ifs with h
    · simp [h]
    · simp only [List.map_cons, List.mem_cons, not_or, ih]
      constructor
      · intro h'; exact ⟨fun e => h e.symm, h'⟩
      · intro h'; exact h'.2

theorem historyAt_mapEmplace_self (m : List (Time × G)) (t : Time) (v : G)
    (h : historyAt m t = none) : historyAt (mapEmplace m t v) t = some v := by
  induction m with
  | nil => simp [mapEmplace, historyAt]
  | cons kv rest ih =>
    unfold historyAt at h
    split_ifs at h with hk
    unfold mapEmplace
    split_ifs with h1 h2
    · simp [historyAt]
    · exact absurd h2.symm hk
    · unfold historyAt
      rw [if_neg hk]
      exact ih h

theorem historyAt_mapEmplace_other (m : List (Time × G)) (t : Time) (v : G) (t' : Time)
    (ht : t' ≠ t) : historyAt (mapEmplace m t v) t' = historyAt m t' := by
  induction m with
  | nil =>
    simp only [mapEmplace, historyAt]
    rw [if_neg (fun e => ht e.symm)]
  | cons kv rest ih =>
    unfold mapEmplace
    split_ifs with h1 h2
    · show (if t = t' then some v else historyAt (kv :: rest) t') = _
      rw [if_neg (fun e => ht e.symm)]
    · rfl
    · unfold historyAt
      rw [ih]

theorem getCreationTime_le (s : VoxgraphSubmap G) (hord : historyOrdered s.pose_history_)
    (kv : Time × G) (hkv : kv ∈ s.pose_history_) :
    (∃ kv' ∈ s.pose_history_, getCreationTime s = kv'.1) ∧ getCreationTime s ≤ kv.1 := by
  unfold getCreationTime
  unfold historyOrdered at hord
  cases hm : s.pose_history_ with
  | nil => rw [hm] at hkv; exact absurd hkv (List.not_mem_nil kv)
  | cons a rest =>
    rw [hm] at hkv hord
    rw [List.pairwise_cons] at hord
    refine ⟨⟨a, List.mem_cons_self a rest, rfl⟩, ?_⟩
    rcases List.mem_cons.1 hkv with rfl | h
    · exact le_refl _
    · exact le_of_lt (hord.1 kv h)

theorem addPosesToHistory_spec [Group G] (adds : List (Time × G)) :
    ∀ s : VoxgraphSubmap G, historyOrdered s.pose_history_ →
      historyOrdered (addPosesToHistory s adds).pose_history_ ∧
      ∀ k, k ∈ (addPosesToHistory s adds).pose_history_.map Prod.fst ↔
        k ∈ s.pose_history_.map Prod.fst ∨ k ∈ adds.map Prod.fst := by
  induction adds with
  | nil =>
    intro s h
    exact ⟨h, fun k => by simp [addPosesToHistory]⟩
  | cons a rest ih =>
    intro s h
    have h1 : historyOrdered (addPoseToHistory s a.1 a.2).pose_history_ :=
      historyOrdered_mapEmplace _ _ _ h
    obtain ⟨ho, hk⟩ := ih (addPoseToHistory s a.1 a.2) h1
    refine ⟨ho, ?_⟩
    intro k
    show k ∈ (addPosesToHistory (addPoseToHistory s a.1 a.2) rest).pose_history_.map Prod.fst ↔ _
    rw [hk k]
    show k ∈ (mapEmplace s.pose_history_ a.1 (s.pose⁻¹ * a.2)).map Prod.fst ∨ _ ↔ _
    rw [mem_keys_mapEmplace]
    simp only [List.map_cons, List.mem_cons]
    tauto

/-- C11. `getCreationTime` returns the zero time for an empty pose history; for a
history with increasing keys (the invariant of `std::map`) it returns a timestamp of
the history that is below every timestamp of the history; and after any non-empty list
of poses was added to an empty history, in whatever order, it returns the least of the
added timestamps. -/
theorem getCreationTime_earliest [Group G] (s : VoxgraphSubmap G) :
    (s.pose_history_ = [] → getCreationTime s = 0) ∧
    (historyOrdered s.pose_history_ → ∀ kv ∈ s.pose_history_,
      (∃ kv' ∈ s.pose_history_, getCreationTime s = kv'.1) ∧ getCreationTime s ≤ kv.1) ∧
    (s.pose_history_ = [] → ∀ adds : List (Time × G), adds ≠ [] →
      (∃ a ∈ adds, getCreationTime (addPosesToHistory s adds) = a.1) ∧
      ∀ a ∈ adds, getCreationTime (addPosesToHistory s adds) ≤ a.1) := by
  refine ⟨?_, ?_, ?_⟩
  · intro h
    unfold getCreationTime
    rw [h]
  · intro hord kv hkv
    exact getCreationTime_le s hord kv hkv
  · intro h adds hne
    have hs : historyOrdered s.pose_history_ := by
      rw [h]
      exact List.Pairwise.nil
    obtain ⟨ho, hk⟩ := addPosesToHistory_spec adds s hs
    have hmem : ∀ a ∈ adds, ∃ kv ∈ (addPosesToHistory s adds).pose_history_, kv.1 = a.1 := by
      intro a ha
      have : a.1 ∈ (addPosesToHistory s adds).pose_history_.map Prod.fst :=
        (hk a.1).2 (Or.inr (List.mem_map_of_mem Prod.fst ha))
      obtain ⟨kv, hkv, e⟩ := List.mem_map.1 this
      exact ⟨kv, hkv, e⟩
    constructor
    · obtain ⟨a0, ha0⟩ := List.exists_mem_of_ne_nil adds hne
      obtain ⟨kv, hkv, _⟩ := hmem a0 ha0
      obtain ⟨⟨kv', hkv', e⟩, _⟩ := getCreationTime_le _ ho kv hkv
      have := (hk kv'.1).1 (List.mem_map_of_mem Prod.fst hkv')
      rw [h] at this
      simp only [List.map_nil, List.not_mem_nil, false_or] at this
      obtain ⟨a, ha, ea⟩ := List.mem_map.1 this
      exact ⟨a, ha, by rw [e, ea]⟩
    · intro a ha
      obtain ⟨kv, hkv, e⟩ := hmem a ha
      rw [← e]
      exact (getCreationTime_le _ ho kv hkv).2

/-- With the timestamps 20, 10, 30 added in that order to the empty history of
`exampleSubmap`, the creation time is 10. -/
theorem getCreationTime_earliest_witness :
    exampleSubmap.pose_history_ = [] ∧
    getCreationTime exampleSubmap = 0 ∧
    getCreationTime (addPosesToHistory exampleSubmap
      [(20, Multiplicative.ofAdd 1), (10, Multiplicative.ofAdd 2),
        (30, Multiplicative.ofAdd 3)]) = 10 ∧
    ∀ a ∈ [(20, Multiplicative.ofAdd (1 : ℤ)), (10, Multiplicative.ofAdd 2),
        (30, Multiplicative.ofAdd 3)],
      getCreationTime (addPosesToHistory exampleSubmap
        [(20, Multiplicative.ofAdd 1), (10, Multiplicative.ofAdd 2),
          (30, Multiplicative.ofAdd 3)]) ≤ a.1 :=
  ⟨rfl, (getCreationTime_earliest exampleSubmap).1 rfl, by decide,
    ((getCreationTime_earliest exampleSubmap).2.2 rfl _ (by simp)).2⟩

/-- C12. On a pose history with increasing keys, `addPoseToHistory(t, W)` keeps the pose
of the submap and the order of the history; when `t` was not a key, the history then
holds `P⁻¹ * W` at `t` (so `P * history[t] = W`) and what it held at every other
timestamp; when `t` was a key, the submap is unchanged: the new pose is rejected. -/
theorem addPoseToHistory_postcondition [Group G] (s : VoxgraphSubmap G) (timestamp : Time)
    (T_world_robot : G) (hord : historyOrdered s.pose_history_) :
    (addPoseToHistory s timestamp T_world_robot).pose = s.pose ∧
    historyOrdered (addPoseToHistory s timestamp T_world_robot).pose_history_ ∧
    (historyAt s.pose_history_ timestamp = none →
      historyAt (addPoseToHistory s timestamp T_world_robot).pose_history_ timestamp =
        some (s.pose⁻¹ * T_world_robot) ∧
      s.pose * (s.pose⁻¹ * T_world_robot) = T_world_robot ∧
      ∀ t', t' ≠ timestamp →
        historyAt (addPoseToHistory s timestamp T_world_robot).pose_history_ t' =
          historyAt s.pose_history_ t') ∧
    (∀ T_old, historyAt s.pose_history_ timestamp = some T_old →
      addPoseToHistory s timestamp T_world_robot = s) := by
  refine ⟨rfl, historyOrdered_mapEmplace _ _ _ hord, ?_, ?_⟩
  · intro hnone
    exact ⟨historyAt_mapEmplace_self _ _ _ hnone, mul_inv_cancel_left _ _,
      fun t' ht => historyAt_mapEmplace_other _ _ _ t' ht⟩
  · intro T_old hsome
    have hmem : timestamp ∈ s.pose_history_.map Prod.fst := by
      by_contra hc
      rw [(historyAt_eq_none_iff _ _).2 hc] at hsome
      exact Option.noConfusion hsome
    unfold addPoseToHistory
    simp only [mapEmplace_of_present _ _ _ hord hmem]

/-- On `examplePosed` (pose 7, entries at 1 and 5): adding the world pose 10 at the new
timestamp 3 records `7⁻¹ * 10`, adding at the present timestamp 5 changes nothing. -/
theorem addPoseToHistory_postcondition_witness :
    historyOrdered examplePosed.pose_history_ ∧
    (addPoseToHistory examplePosed 3 (Multiplicative.ofAdd 10)).pose_history_ =
      [(1, Multiplicative.ofAdd 3), (3, Multiplicative.ofAdd 3),
        (5, Multiplicative.ofAdd 4)] ∧
    historyOrdered
      (addPoseToHistory examplePosed 3 (Multiplicative.ofAdd 10)).pose_history_ ∧
    addPoseToHistory examplePosed 5 (Multiplicative.ofAdd 100) = examplePosed :=
  ⟨by decide, by decide,
    (addPoseToHistory_postcondition examplePosed 3 (Multiplicative.ofAdd 10)
      (by decide)).2.1,
    (addPoseToHistory_postcondition examplePosed 5 (Multiplicative.ofAdd 100)
      (by decide)).2.2.2 (Multiplicative.ofAdd 4) (by decide)⟩

theorem historyAt_map_mul [Group G] (T P : G) (m : List (Time × G)) (t : Time) :
    (historyAt (m.map (fun (kv : Time × G) => (kv.1, T * kv.2))) t).map
        (fun E => P * T⁻¹ * E) =
      (historyAt m t).map (fun E => P * E) := by
  induction m with
  | nil => rfl
  | cons kv rest ih =>
    simp only [List.map_cons, historyAt]
    split_ifs
    · simp only [Option.map_some']
      rw [mul_assoc, inv_mul_cancel_left]
    · exact ih

/-- C17. Whenever `transformSubmap` returns, every entry of the new pose history pairs
with the entry of the old history at the same place and timestamp, and the world-frame
pose it stands for is the same: `new_pose * new_entry = old_pose * old_entry`; so at
every timestamp the world-frame pose recovered from the history is the one before. -/
theorem transformSubmap_preserves_world_poses [Group G] (ext : External G)
    (s s' : VoxgraphSubmap G) (T_new_old : G)
    (h : transformSubmap ext s T_new_old = some s') :
    List.Forall₂ (fun (old_entry new_entry : Time × G) =>
        new_entry.1 = old_entry.1 ∧ s'.pose * new_entry.2 = s.pose * old_entry.2)
      s.pose_history_ s'.pose_history_ ∧
    ∀ t, (historyAt s'.pose_history_ t).map (fun E => s'.pose * E) =
      (historyAt s.pose_history_ t).map (fun E => s.pose * E) := by
  unfold transformSubmap at h
  obtain ⟨hpose, hhist, -⟩ := finishSubmap_eq_some ext _ s' h
  simp only [] at hpose hhist
  rw [hpose, hhist]
  constructor
  · rw [List.forall₂_map_right_iff]
    refine List.forall₂_same.2 (fun kv _ => ⟨rfl, ?_⟩)
    show s.pose * T_new_old⁻¹ * (T_new_old * kv.2) = s.pose * kv.2
    rw [mul_assoc, inv_mul_cancel_left]
  · intro t
    exact historyAt_map_mul T_new_old s.pose s.pose_history_ t

/-- On `examplePosed` the call with the transformation `2` returns `exampleTransformed`,
and the entry at timestamp 5 stands for the world pose `7 * 4 = 5 * 6` before and after. -/
theorem transformSubmap_preserves_world_poses_witness :
    transformSubmap exampleExternal examplePosed (Multiplicative.ofAdd 2) =
      some exampleTransformed ∧
    (historyAt exampleTransformed.pose_history_ 5).map
        (fun E => exampleTransformed.pose * E) =
      (historyAt examplePosed.pose_history_ 5).map (fun E => examplePosed.pose * E) ∧
    (historyAt examplePosed.pose_history_ 5).map (fun E => examplePosed.pose * E) =
      some (Multiplicative.ofAdd 11) :=
  ⟨by with_unfolding_all rfl,
    (transformSubmap_preserves_world_poses exampleExternal examplePosed exampleTransformed
      (Multiplicative.ofAdd 2) (by with_unfolding_all rfl)).2 5,
    by decide⟩

/-! ## The samplers depend on the current data only -/

theorem findRelevantVoxelIndices_again (s s1 : VoxgraphSubmap G)
    (h : findRelevantVoxelIndices s = some s1) : findRelevantVoxelIndices s1 = some s1 := by
  have hf := findRelevantVoxelIndices_frame s s1 h
  have h1 : s1.tsdf_layer = s.tsdf_layer := by rw [hf]
  have h2 : s1.esdf_layer = s.esdf_layer := by rw [hf]
  have h3 : s1.registration_filter = s.registration_filter := by rw [hf]
  have hr := relevant_voxels_congr s s1 h1 h2 h3
  rw [h] at hr
  cases h' : findRelevantVoxelIndices s1 with
  | none => rw [h'] at hr; exact Option.noConfusion hr
  | some s2 =>
    rw [h'] at hr
    simp only [Option.map_some', Option.some.injEq] at hr
    have hf2 := findRelevantVoxelIndices_frame s1 s2 h'
    rw [hf2, hr]

theorem findIsosurfaceVertices_again (ext : External G) (s s1 : VoxgraphSubmap G)
    (h : findIsosurfaceVertices ext s = some s1) :
    findIsosurfaceVertices ext s1 = some s1 := by
  have hf := findIsosurfaceVertices_frame ext s s1 h
  have h1 : s1.tsdf_layer = s.tsdf_layer := by rw [hf]
  have h3 : s1.registration_filter = s.registration_filter := by rw [hf]
  have hr := isosurface_vertices_congr ext s s1 h1 h3
  rw [h] at hr
  cases h' : findIsosurfaceVertices ext s1 with
  | none => rw [h'] at hr; exact Option.noConfusion hr
  | some s2 =>
    rw [h'] at hr
    simp only [Option.map_some', Option.some.injEq] at hr
    have hf2 := findIsosurfaceVertices_frame ext s1 s2 h'
    rw [hf2, hr]

/-- C13. For two submaps with the same TSDF layer, ESDF layer and filter config, whatever
their samplers hold, `findRelevantVoxelIndices` gives the same voxel sampler (or aborts
on both) and `findIsosurfaceVertices` the same vertex sampler; and running an extraction
again on its own result returns that result unchanged, so the sampler has the same items
and size as after one run. -/
theorem samplers_rebuilt (ext : External G) (s t : VoxgraphSubmap G)
    (h1 : t.tsdf_layer = s.tsdf_layer) (h2 : t.esdf_layer = s.esdf_layer)
    (h3 : t.registration_filter = s.registration_filter) :
    (findRelevantVoxelIndices t).map (fun r => r.relevant_voxels_) =
      (findRelevantVoxelIndices s).map (fun r => r.relevant_voxels_) ∧
    (findIsosurfaceVertices ext t).map (fun r => r.isosurface_vertices_) =
      (findIsosurfaceVertices ext s).map (fun r => r.isosurface_vertices_) ∧
    (∀ s1, findRelevantVoxelIndices s = some s1 →
      findRelevantVoxelIndices s1 = some s1 ∧
      ∀ s2, findRelevantVoxelIndices s1 = some s2 →
        s2.relevant_voxels_ = s1.relevant_voxels_ ∧
        s2.relevant_voxels_.size = s1.relevant_voxels_.size) ∧
    (∀ s1, findIsosurfaceVertices ext s = some s1 →
      findIsosurfaceVertices ext s1 = some s1 ∧
      ∀ s2, findIsosurfaceVertices ext s1 = some s2 →
        s2.isosurface_vertices_ = s1.isosurface_vertices_ ∧
        s2.isosurface_vertices_.size = s1.isosurface_vertices_.size) := by
  refine ⟨relevant_voxels_congr s t h1 h2 h3, isosurface_vertices_congr ext s t h1 h3, ?_, ?_⟩
  · intro s1 hs1
    have ha := findRelevantVoxelIndices_again s s1 hs1
    refine ⟨ha, ?_⟩
    intro s2 hs2
    rw [ha] at hs2
    simp only [Option.some.injEq] at hs2
    rw [hs2]
    exact ⟨rfl, rfl⟩
  · intro s1 hs1
    have ha := findIsosurfaceVertices_again ext s s1 hs1
    refine ⟨ha, ?_⟩
    intro s2 hs2
    rw [ha] at hs2
    simp only [Option.some.injEq] at hs2
    rw [hs2]
    exact ⟨rfl, rfl⟩

/-- The samplers of `exampleSubmapUsed`, which hold an item each, are replaced by the
samplers that the extractions give on `exampleSubmap`: two voxels, and one vertex of
the mesh of `exampleExternalInside`. -/
theorem samplers_rebuilt_witness :
    (findRelevantVoxelIndices exampleSubmapUsed).map (fun r => r.relevant_voxels_) =
      some exampleRelevantVoxels ∧
    (findRelevantVoxelIndices exampleSubmapUsed).map (fun r => r.relevant_voxels_) =
      (findRelevantVoxelIndices exampleSubmap).map (fun r => r.relevant_voxels_) ∧
    (findIsosurfaceVertices exampleExternalInside exampleSubmapUsed).map
        (fun r => r.isosurface_vertices_) =
      (findIsosurfaceVertices exampleExternalInside exampleSubmap).map
        (fun r => r.isosurface_vertices_) :=
  ⟨by decide!,
    (samplers_rebuilt exampleExternalInside exampleSubmap exampleSubmapUsed rfl rfl rfl).1,
    (samplers_rebuilt exampleExternalInside exampleSubmap exampleSubmapUsed rfl rfl rfl).2.1⟩

/-! ## The tolerance check on isosurface vertices -/

theorem isosurfaceVertexBody_some (ext : External G) (tsdf_layer : TsdfLayer)
    (acc acc' : WeightedSampler RegistrationPoint) (p : Point)
    (h : isosurfaceVertexBody ext tsdf_layer acc p = some acc') :
    acc' = acc ∨ ∃ voxel, ext.interpolatorGetVoxel tsdf_layer p = some voxel ∧
      voxel.distance ≤ 1 / 100 * tsdf_layer.voxel_size ∧
      acc'.items = acc.items ++ [(⟨p, voxel.distance, voxel.weight⟩, voxel.weight)] := by
  unfold isosurfaceVertexBody at h
  cases hv : ext.interpolatorGetVoxel tsdf_layer p with
  | none =>
    simp only [hv, Option.some.injEq] at h
    exact Or.inl h.symm
  | some voxel =>
    simp only [hv] at h
    split_ifs at h with hle
    simp only [Option.some.injEq] at h
    exact Or.inr ⟨voxel, rfl, hle, by rw [← h]; rfl⟩

/-- Every vertex that `findIsosurfaceVertices` admits has an interpolated distance of at
most `1e-2 * voxel_size`: the check bounds the distance from above only. -/
theorem isosurface_vertices_distance_le (ext : External G) (tsdf_layer : TsdfLayer) :
    ∀ (l : List Point) (acc acc' : WeightedSampler RegistrationPoint),
      l.foldlM (isosurfaceVertexBody ext tsdf_layer) acc = some acc' →
      (∀ item ∈ acc.items, item.1.distance ≤ 1 / 100 * tsdf_layer.voxel_size) →
      ∀ item ∈ acc'.items, item.1.distance ≤ 1 / 100 * tsdf_layer.voxel_size := by
  intro l
  induction l with
  | nil =>
    intro acc acc' h hacc
    simp only [List.foldlM_nil, Option.pure_def, Option.some.injEq] at h
    rw [← h]
    exact hacc
  | cons p l ih =>
    intro acc acc' h hacc
    rw [List.foldlM_cons] at h
    cases hb : isosurfaceVertexBody ext tsdf_layer acc p with
    | none => simp [hb] at h
    | some acc1 =>
      simp only [hb, Option.some_bind] at h
      apply ih acc1 acc' h
      rcases isosurfaceVertexBody_some ext tsdf_layer acc acc1 p hb with e | ⟨v, _, hle, e⟩
      · rw [e]; exact hacc
      · intro item hitem
        rw [e, List.mem_append, List.mem_singleton] at hitem
        rcases hitem with hi | hi
        · exact hacc item hi
        · rw [hi]; exact hle

/-- C14, evaluated on the code. With a voxel size of 1 the tolerance is `1/100`. A mesh
vertex whose interpolated distance is `-5` is admitted by `findIsosurfaceVertices`
without any failure, although `|-5| > 1/100`; the same vertex with distance `5` makes
the extraction abort. The check is `distance ≤ tolerance`, not `|distance| ≤ tolerance`. -/
theorem findIsosurfaceVertices_admits_far_negative_distance :
    exampleSubmap.tsdf_layer.voxel_size = 1 ∧
    findIsosurfaceVertices exampleExternalInside exampleSubmap =
      some { exampleSubmap with
        isosurface_vertices_ := ⟨[(⟨⟨0, 0, 0⟩, -5, 1⟩, 1)]⟩ } ∧
    |(-5 : ℚ)| > 1 / 100 * exampleSubmap.tsdf_layer.voxel_size ∧
    findIsosurfaceVertices exampleExternalOutside exampleSubmap = none :=
  ⟨rfl, by with_unfolding_all rfl, by decide!, by with_unfolding_all rfl⟩

/-! ## The angle parameterization -/

/-- C16. `AngleLocalParameterization::operator()` returns true and writes
`NormalizeAngle(theta + delta)`; for a positive value of π the written angle lies in
`[-π, π)` and differs from `theta + delta` by an integer multiple of `2π`. -/
theorem angle_update_rule {K : Type} [LinearOrderedField K] [FloorRing K] (pi : K)
    (theta_radians delta_theta_radians : K) (hpi : 0 < pi) :
    (AngleLocalParameterization.call pi theta_radians delta_theta_radians).1 = true ∧
    (AngleLocalParameterization.call pi theta_radians delta_theta_radians).2 =
      NormalizeAngle pi (theta_radians + delta_theta_radians) ∧
    -pi ≤ (AngleLocalParameterization.call pi theta_radians delta_theta_radians).2 ∧
    (AngleLocalParameterization.call pi theta_radians delta_theta_radians).2 < pi ∧
    ∃ k : ℤ, theta_radians + delta_theta_radians -
      (AngleLocalParameterization.call pi theta_radians delta_theta_radians).2 =
        (k : K) * (2 * pi) := by
  have h2 : (0 : K) < 2 * pi := by linarith
  have hfl := Int.floor_le ((theta_radians + delta_theta_radians + pi) / (2 * pi))
  have hlt := Int.lt_floor_add_one ((theta_radians + delta_theta_radians + pi) / (2 * pi))
  rw [le_div_iff₀ h2] at hfl
  rw [div_lt_iff₀ h2] at hlt
  refine ⟨rfl, rfl, ?_, ?_, ⟨Int.floor ((theta_radians + delta_theta_radians + pi) / (2 * pi)), ?_⟩⟩
  · show -pi ≤ theta_radians + delta_theta_radians - 2 * pi * _
    linarith
  · show theta_radians + delta_theta_radians - 2 * pi * _ < pi
    linarith
  · show theta_radians + delta_theta_radians -
      (theta_radians + delta_theta_radians - 2 * pi * _) = _
    ring

/-- With `π` taken as `3`, `theta = 3` and `delta = 1`, the written angle is
`4 - 6 = -2`, which lies in `[-3, 3)`. -/
theorem angle_update_rule_witness :
    (0 : ℚ) < 3 ∧
    (AngleLocalParameterization.call (3 : ℚ) 3 1).2 = -2 ∧
    -3 ≤ (AngleLocalParameterization.call (3 : ℚ) 3 1).2 ∧
    (AngleLocalParameterization.call (3 : ℚ) 3 1).2 < 3 :=
  ⟨by norm_num, by decide!,
    (angle_update_rule (3 : ℚ) 3 1 (by norm_num)).2.2.1,
    (angle_update_rule (3 : ℚ) 3 1 (by norm_num)).2.2.2.1⟩

/-! ## Admission and the alternate distance field -/

theorem admittedVoxels_congr (f f' : RegistrationFilter) (tsdf_layer : TsdfLayer)
    (hw : f'.min_voxel_weight = f.min_voxel_weight)
    (hd : f'.max_voxel_distance = f.max_voxel_distance) :
    admittedVoxels f' tsdf_layer = admittedVoxels f tsdf_layer := by
  unfold admittedVoxels
  apply List.filter_congr
  intro v _
  rw [decide_eq_decide]
  unfold Admitted
  rw [hw, hd]

theorem forall₂_common_left {α β γ : Type} (P : α → β → Prop) (Q : α → γ → Prop) :
    ∀ (l : List α) (bs : List β) (cs : List γ),
      List.Forall₂ P l bs → List.Forall₂ Q l cs →
      List.Forall₂ (fun b c => ∃ a ∈ l, P a b ∧ Q a c) bs cs := by
  intro l
  induction l with
  | nil =>
    intro bs cs hb hc
    cases hb
    cases hc
    exact List.Forall₂.nil
  | cons a l ih =>
    intro bs cs hb hc
    cases hb with
    | cons hab hbs =>
      cases hc with
      | cons hac hcs =>
        refine List.Forall₂.cons ⟨a, List.mem_cons_self a l, hab, hac⟩ ?_
        exact (ih _ _ hbs hcs).imp
          (fun b c ⟨x, hx, h1, h2⟩ => ⟨x, List.mem_cons_of_mem a hx, h1, h2⟩)

theorem items_of_find (s s' : VoxgraphSubmap G) (h : findRelevantVoxelIndices s = some s') :
    List.Forall₂ (fun v item => registrationItem s v = some item)
      (admittedVoxels s.registration_filter s.tsdf_layer) s'.relevant_voxels_.items := by
  rw [findRelevantVoxelIndices_eq] at h
  cases hc : collectItems (registrationItem s)
      (admittedVoxels s.registration_filter s.tsdf_layer) with
  | none => simp [hc] at h
  | some items =>
    simp only [hc, Option.map_some', Option.some.injEq] at h
    subst h
    exact collectItems_forall₂ _ _ _ hc

/-- C19. For two submaps with the same TSDF layer, `min_voxel_weight` and
`max_voxel_distance`, whatever their `use_esdf_distance` flags and ESDF layers are, the
admitted voxels are the same; when `findRelevantVoxelIndices` returns on both, the items
pair up one to one, each pair coming from one admitted voxel with the same position,
confidence weight and sampling weight; and with the same cached surface box
`getSubmapFrameSurfaceObb` returns the same box. -/
theorem admission_ignores_esdf_flag (s t : VoxgraphSubmap G)
    (h1 : t.tsdf_layer = s.tsdf_layer)
    (hw : t.registration_filter.min_voxel_weight = s.registration_filter.min_voxel_weight)
    (hd : t.registration_filter.max_voxel_distance =
      s.registration_filter.max_voxel_distance) :
    admittedVoxels t.registration_filter t.tsdf_layer =
      admittedVoxels s.registration_filter s.tsdf_layer ∧
    (∀ s' t', findRelevantVoxelIndices s = some s' → findRelevantVoxelIndices t = some t' →
      s'.relevant_voxels_.size = t'.relevant_voxels_.size ∧
      List.Forall₂ (fun (a b : RegistrationPoint × ℚ) =>
          ∃ v ∈ admittedVoxels s.registration_filter s.tsdf_layer,
            (a.1.position = voxelCoordinates s.tsdf_layer v ∧
              b.1.position = voxelCoordinates s.tsdf_layer v) ∧
            (a.1.weight = (tsdfVoxelAt s.tsdf_layer v).weight ∧
              b.1.weight = (tsdfVoxelAt s.tsdf_layer v).weight) ∧
            (a.2 = (tsdfVoxelAt s.tsdf_layer v).weight ∧
              b.2 = (tsdfVoxelAt s.tsdf_layer v).weight))
        s'.relevant_voxels_.items t'.relevant_voxels_.items) ∧
    (t.surface_obb_ = s.surface_obb_ →
      (getSubmapFrameSurfaceObb t).1 = (getSubmapFrameSurfaceObb s).1) := by
  have hadm := admittedVoxels_congr s.registration_filter t.registration_filter
    s.tsdf_layer hw hd
  refine ⟨by rw [h1]; exact hadm, ?_, ?_⟩
  · intro s' t' hs ht
    have fs := items_of_find s s' hs
    have ft := items_of_find t t' ht
    rw [h1, hadm] at ft
    refine ⟨by
      show s'.relevant_voxels_.items.length = t'.relevant_voxels_.items.length
      rw [← fs.length_eq, ← ft.length_eq], ?_⟩
    refine (forall₂_common_left _ _ _ _ _ fs ft).imp ?_
    rintro a b ⟨v, hv, ha, hb⟩
    obtain ⟨a1, a2, a3, -⟩ := registrationItem_eq_some s v a ha
    obtain ⟨b1, b2, b3, -⟩ := registrationItem_eq_some t v b hb
    rw [h1] at b1 b2 b3
    exact ⟨v, hv, ⟨a1, b1⟩, ⟨a2, b2⟩, ⟨a3, b3⟩⟩
  · intro hbox
    unfold getSubmapFrameSurfaceObb
    simp only [surfaceObbScan_eq, hbox, h1, hadm]
    split_ifs <;> rfl

/-- On `exampleSubmap` and `exampleSubmapEsdf`, which differ in `use_esdf_distance` only,
the extraction returns on both, the admitted voxels are the same, the positions and
weights of the items agree, and the surface boxes are equal. -/
theorem admission_ignores_esdf_flag_witness :
    findRelevantVoxelIndices exampleSubmap =
      some { exampleSubmap with relevant_voxels_ := exampleRelevantVoxels } ∧
    findRelevantVoxelIndices exampleSubmapEsdf =
      some { exampleSubmapEsdf with relevant_voxels_ := exampleRelevantVoxelsEsdf } ∧
    exampleRelevantVoxels ≠ exampleRelevantVoxelsEsdf ∧
    exampleRelevantVoxels.items.map (fun item => (item.1.position, item.1.weight, item.2)) =
      exampleRelevantVoxelsEsdf.items.map
        (fun item => (item.1.position, item.1.weight, item.2)) ∧
    admittedVoxels exampleSubmapEsdf.registration_filter exampleSubmapEsdf.tsdf_layer =
      admittedVoxels exampleSubmap.registration_filter exampleSubmap.tsdf_layer ∧
    (getSubmapFrameSurfaceObb exampleSubmapEsdf).1 =
      (getSubmapFrameSurfaceObb exampleSubmap).1 :=
  ⟨by with_unfolding_all rfl, by with_unfolding_all rfl, by decide!, by decide!,
    (admission_ignores_esdf_flag exampleSubmap exampleSubmapEsdf rfl rfl rfl).1,
    (admission_ignores_esdf_flag exampleSubmap exampleSubmapEsdf rfl rfl rfl).2.2 rfl⟩

/-! ## Symmetry and reflexivity of the overlap test -/

theorem overlapsAabb_comm (a b : BoundingBox) : overlapsAabb a b = overlapsAabb b a := by
  cases hab : overlapsAabb a b with
  | false =>
    obtain ⟨i, hi⟩ := (overlapsAabb_eq_false_iff a b).1 hab
    exact ((overlapsAabb_eq_false_iff b a).2 ⟨i, hi.symm⟩).symm
  | true =>
    cases hba : overlapsAabb b a with
    | true => rfl
    | false =>
      obtain ⟨i, hi⟩ := (overlapsAabb_eq_false_iff b a).1 hba
      rw [(overlapsAabb_eq_false_iff a b).2 ⟨i, hi.symm⟩] at hab
      exact hab.symm

theorem overlapsAabb_self (a : BoundingBox) (h : a.valid) : overlapsAabb a a = true := by
  cases haa : overlapsAabb a a with
  | true => rfl
  | false =>
    obtain ⟨i, hi⟩ := (overlapsAabb_eq_false_iff a a).1 haa
    rcases hi with hi | hi
    · exact absurd (h i) (not_le.2 hi)
    · exact absurd (h i) (not_le.2 hi)

theorem Scalar.le_negInf_iff (x : Scalar) : ¬ Scalar.negInf < x ↔ x = Scalar.negInf := by
  unfold Scalar.negInf
  rw [bot_lt_iff_ne_bot, not_not]

theorem Scalar.posInf_le_iff (x : Scalar) : ¬ Scalar.posInf > x ↔ x = Scalar.posInf := by
  have htop : Scalar.posInf = (⊤ : Scalar) := rfl
  rw [htop, gt_iff_lt, lt_top_iff_ne_top, not_not]

theorem overlapsAabb_default_iff (b : BoundingBox) :
    overlapsAabb {} b = true ↔ b = wholeSpaceBox := by
  constructor
  · intro h
    have hno : ¬ ∃ i : Fin 3, ({} : BoundingBox).max.coeff i < b.min.coeff i ∨
        ({} : BoundingBox).min.coeff i > b.max.coeff i := by
      rw [← overlapsAabb_eq_false_iff, h]
      exact Bool.noConfusion
    have hall : ∀ i : Fin 3, b.min.coeff i = Scalar.negInf ∧ b.max.coeff i = Scalar.posInf := by
      intro i
      have hi : ¬ (({} : BoundingBox).max.coeff i < b.min.coeff i ∨
          ({} : BoundingBox).min.coeff i > b.max.coeff i) := fun hc => hno ⟨i, hc⟩
      rw [default_max_coeff, default_min_coeff, not_or] at hi
      exact ⟨(Scalar.le_negInf_iff _).1 hi.1, (Scalar.posInf_le_iff _).1 hi.2⟩
    cases b with
    | mk mn mx =>
      have hmn : mn = wholeSpaceBox.min :=
        Vec3.ext_coeff _ _ (fun i => by
          rw [(hall i).1]
          fin_cases i <;> rfl)
      have hmx : mx = wholeSpaceBox.max :=
        Vec3.ext_coeff _ _ (fun i => by
          rw [(hall i).2]
          fin_cases i <;> rfl)
      rw [hmn, hmx]
  · intro h
    rw [h]
    decide

theorem getWorldFrameSurfaceAabb_twice (ext : External G) (s : VoxgraphSubmap G) :
    (getWorldFrameSurfaceAabb ext (getWorldFrameSurfaceAabb ext s).2).1 =
      (getWorldFrameSurfaceAabb ext s).1 := by
  unfold getWorldFrameSurfaceAabb
  simp only []
  rw [getSubmapFrameSurfaceObb_twice s]
  have hp : ∀ r : VoxgraphSubmap G, (getSubmapFrameSurfaceObb r).2.pose = r.pose := by
    intro r
    rw [getSubmapFrameSurfaceObb_snd]
  rw [hp, hp]

/-! ## Runs of operations -/

theorem applyOperation_finished [Group G] (ext : External G) (s s' : VoxgraphSubmap G)
    (op : Operation G) (h : applyOperation ext s op = some s')
    (hf : s.finished_ = true) : s'.finished_ = true := by
  cases op with
  | addPoseToHistory t W =>
    simp only [applyOperation, Option.some.injEq] at h
    rw [← h]; exact hf
  | setRegistrationFilterConfig c =>
    simp only [applyOperation, Option.some.injEq] at h
    rw [← h]; exact hf
  | finishSubmap =>
    exact (finishSubmap_eq_some ext s s' h).2.2.2.2.2.1
  | transformSubmap T =>
    unfold applyOperation transformSubmap at h
    exact (finishSubmap_eq_some ext _ s' h).2.2.2.2.2.1
  | getSubmapFrameSurfaceObb =>
    simp only [applyOperation, Option.some.injEq] at h
    rw [← h, getSubmapFrameSurfaceObb_snd]; exact hf
  | getSubmapFrameSubmapObb =>
    simp only [applyOperation, Option.some.injEq] at h
    rw [← h, getSubmapFrameSubmapObb_snd]; exact hf
  | overlapsWith other =>
    simp only [applyOperation, getWorldFrameSurfaceAabb, Option.some.injEq] at h
    rw [← h, getSubmapFrameSurfaceObb_snd]; exact hf

theorem runOperations_finished [Group G] (ext : External G) (ops : List (Operation G)) :
    ∀ s s' : VoxgraphSubmap G, runOperations ext s ops = some s' →
      s.finished_ = true → s'.finished_ = true := by
  induction ops with
  | nil =>
    intro s s' h hf
    simp only [runOperations, List.foldlM_nil, Option.pure_def, Option.some.injEq] at h
    rw [← h]; exact hf
  | cons op ops ih =>
    intro s s' h hf
    unfold runOperations at h
    rw [List.foldlM_cons] at h
    cases h1 : applyOperation ext s op with
    | none => simp [h1] at h
    | some s1 =>
      simp only [h1, Option.some_bind] at h
      exact ih s1 s' h (applyOperation_finished ext s s1 op h1 hf)

/-- C15. For every state `s1` reached from a newly constructed submap by a run of
operations (not finished when the run is empty) and every state `s2` reached from `s1`
by a further run: if
`finished_` is true in `s1` it is true in `s2`; and `finished_` is true in the state
every returning `finishSubmap` and every returning `transformSubmap` leaves. -/
theorem finalization_one_way [Group G] (ext : External G) (T_M_S : G)
    (tsdf_layer : TsdfLayer) (esdf_layer : EsdfLayer)
    (registration_filter : RegistrationFilter) (ops1 ops2 : List (Operation G))
    (s1 s2 : VoxgraphSubmap G)
    (h1 : runOperations ext (newSubmap T_M_S tsdf_layer esdf_layer registration_filter)
      ops1 = some s1)
    (h2 : runOperations ext s1 ops2 = some s2) :
    (ops1 = [] → s1.finished_ = false) ∧
    (s1.finished_ = true → s2.finished_ = true) ∧
    (∀ r, applyOperation ext s1 Operation.finishSubmap = some r → r.finished_ = true) ∧
    (∀ T_new_old r, applyOperation ext s1 (Operation.transformSubmap T_new_old) = some r →
      r.finished_ = true) := by
  refine ⟨?_, runOperations_finished ext ops2 s1 s2 h2, ?_, ?_⟩
  · intro hnil
    rw [hnil] at h1
    simp only [runOperations, List.foldlM_nil, Option.pure_def, Option.some.injEq] at h1
    rw [← h1]
    rfl
  · intro r hr
    exact (finishSubmap_eq_some ext s1 r hr).2.2.2.2.2.1
  · intro T r hr
    unfold applyOperation transformSubmap at hr
    exact (finishSubmap_eq_some ext _ r hr).2.2.2.2.2.1

/-- From the newly constructed `exampleSubmap`, `finishSubmap` leads to the finished
`exampleFinished`, and from there a change of the filter, a pose, two box queries, an
overlap query and a second `finishSubmap` lead to `exampleRefinished`, finished as well. -/
theorem finalization_one_way_witness :
    runOperations exampleExternal
        (newSubmap 1 exampleTsdfLayer exampleEsdfLayer ⟨1, 1, false⟩)
        [Operation.finishSubmap] = some exampleFinished ∧
    runOperations exampleExternal exampleFinished
        [Operation.setRegistrationFilterConfig ⟨2, 1, false⟩,
          Operation.getSubmapFrameSurfaceObb, Operation.getSubmapFrameSubmapObb,
          Operation.overlapsWith exampleSubmap, Operation.finishSubmap] =
      some exampleRefinished ∧
    exampleFinished.finished_ = true ∧ exampleRefinished.finished_ = true :=
  ⟨by with_unfolding_all rfl, by with_unfolding_all rfl, rfl,
    (finalization_one_way exampleExternal 1 exampleTsdfLayer exampleEsdfLayer ⟨1, 1, false⟩
      [Operation.finishSubmap]
      [Operation.setRegistrationFilterConfig ⟨2, 1, false⟩,
        Operation.getSubmapFrameSurfaceObb, Operation.getSubmapFrameSubmapObb,
        Operation.overlapsWith exampleSubmap, Operation.finishSubmap]
      exampleFinished exampleRefinished (by with_unfolding_all rfl)
      (by with_unfolding_all rfl)).2.1 rfl⟩

/-! ## Registration voxels and the cached surface box -/

theorem freshSurfaceObb_eq (s : VoxgraphSubmap G) :
    freshSurfaceObb s =
      ({} : BoundingBox).expandAll (voxelMinCorner s.tsdf_layer)
        (voxelMaxCorner s.tsdf_layer)
        (admittedVoxels s.registration_filter s.tsdf_layer) := by
  unfold freshSurfaceObb
  rw [getSubmapFrameSurfaceObb_of_unset _ rfl]

theorem freshSurfaceObb_congr (s t : VoxgraphSubmap G) (h1 : t.tsdf_layer = s.tsdf_layer)
    (h3 : t.registration_filter = s.registration_filter) :
    freshSurfaceObb t = freshSurfaceObb s := by
  rw [freshSurfaceObb_eq, freshSurfaceObb_eq, h1, h3]

theorem getSubmapFrameSurfaceObb_of_fresh (s : VoxgraphSubmap G) (h : surfaceBoxFresh s) :
    (getSubmapFrameSurfaceObb s).1 = freshSurfaceObb s := by
  rcases h with h | h
  · rw [getSubmapFrameSurfaceObb_of_unset s h, freshSurfaceObb_eq]
  · unfold getSubmapFrameSurfaceObb
    split_ifs
    · show surfaceObbScan s s.surface_obb_ = _
      rw [surfaceObbScan_eq, h, freshSurfaceObb_eq]
      exact expandAll_idem _ _ _ _
    · exact h

theorem surfaceBoxFresh_of_eq (s s' : VoxgraphSubmap G) (h1 : s'.tsdf_layer = s.tsdf_layer)
    (h3 : s'.registration_filter = s.registration_filter)
    (hb : s'.surface_obb_ = freshSurfaceObb s) : surfaceBoxFresh s' :=
  Or.inr (by rw [hb, freshSurfaceObb_congr s s' h1 h3])

theorem finishSubmap_fresh (ext : External G) (s s' : VoxgraphSubmap G)
    (h : finishSubmap ext s = some s') (hf : surfaceBoxFresh s) :
    s'.surface_obb_ = freshSurfaceObb s' ∧ surfaceBoxFresh s' := by
  obtain ⟨-, -, h1, h2, -, -, h4, -⟩ := finishSubmap_eq_some ext s s' h
  have hb : s'.surface_obb_ = freshSurfaceObb s := by
    rw [h4, getSubmapFrameSurfaceObb_of_fresh s hf]
  exact ⟨by rw [hb, freshSurfaceObb_congr s s' h1 h2], surfaceBoxFresh_of_eq s s' h1 h2 hb⟩

theorem applyOperation_fresh [Group G] (ext : External G) (s s' : VoxgraphSubmap G)
    (op : Operation G) (h : applyOperation ext s op = some s') (hf : surfaceBoxFresh s)
    (hop : configChangeAllowed s op = true) : surfaceBoxFresh s' := by
  cases op with
  | addPoseToHistory t W =>
    simp only [applyOperation, Option.some.injEq] at h
    rw [← h]
    rcases hf with hf | hf
    · exact Or.inl hf
    · exact Or.inr hf
  | setRegistrationFilterConfig c =>
    simp only [applyOperation, Option.some.injEq] at h
    rw [← h]
    exact Or.inl (of_decide_eq_true hop)
  | finishSubmap =>
    exact (finishSubmap_fresh ext s s' h hf).2
  | transformSubmap T =>
    unfold applyOperation transformSubmap at h
    exact (finishSubmap_fresh ext _ s' h (Or.inl rfl)).2
  | getSubmapFrameSurfaceObb =>
    simp only [applyOperation, Option.some.injEq] at h
    rw [← h, getSubmapFrameSurfaceObb_snd]
    exact surfaceBoxFresh_of_eq s _ rfl rfl (getSubmapFrameSurfaceObb_of_fresh s hf)
  | getSubmapFrameSubmapObb =>
    simp only [applyOperation, Option.some.injEq] at h
    rw [← h, getSubmapFrameSubmapObb_snd]
    rcases hf with hf | hf
    · exact Or.inl hf
    · exact Or.inr hf
  | overlapsWith other =>
    simp only [applyOperation, getWorldFrameSurfaceAabb, Option.some.injEq] at h
    rw [← h, getSubmapFrameSurfaceObb_snd]
    exact surfaceBoxFresh_of_eq s _ rfl rfl (getSubmapFrameSurfaceObb_of_fresh s hf)

theorem runOperations_fresh [Group G] (ext : External G) (ops : List (Operation G)) :
    ∀ s s' : VoxgraphSubmap G, runOperations ext s ops = some s' →
      configSetOnlyWhileUnset ext s ops = true → surfaceBoxFresh s →
      surfaceBoxFresh s' := by
  induction ops with
  | nil =>
    intro s s' h _ hf
    simp only [runOperations, List.foldlM_nil, Option.pure_def, Option.some.injEq] at h
    rw [← h]; exact hf
  | cons op ops ih =>
    intro s s' h hc hf
    unfold runOperations at h
    rw [List.foldlM_cons] at h
    unfold configSetOnlyWhileUnset at hc
    rw [Bool.and_eq_true] at hc
    cases h1 : applyOperation ext s op with
    | none => simp [h1] at h
    | some s1 =>
      simp only [h1, Option.some_bind] at h
      have hc2 := hc.2
      simp only [h1] at hc2
      exact ih s1 s' h hc2 (applyOperation_fresh ext s s1 op h1 hf hc.1)

theorem forall₂_exists_of_mem_right {α β : Type} (R : α → β → Prop) :
    ∀ (l : List α) (bs : List β), List.Forall₂ R l bs → ∀ b ∈ bs, ∃ a ∈ l, R a b := by
  intro l bs h
  induction h with
  | nil => intro b hb; exact absurd hb (List.not_mem_nil b)
  | cons hab _ ih =>
    intro b hb
    rcases List.mem_cons.1 hb with rfl | hb
    · exact ⟨_, List.mem_cons_self _ _, hab⟩
    · obtain ⟨a, ha, hr⟩ := ih b hb
      exact ⟨a, List.mem_cons_of_mem _ ha, hr⟩

theorem voxelMinCorner_coeff (tsdf_layer : TsdfLayer) (v : VoxelRef) (i : Fin 3) :
    (voxelMinCorner tsdf_layer v).coeff i =
      (voxelCoordinates tsdf_layer v).coeff i - 1 / 2 * tsdf_layer.voxel_size := by
  fin_cases i <;> rfl

theorem voxelMaxCorner_coeff (tsdf_layer : TsdfLayer) (v : VoxelRef) (i : Fin 3) :
    (voxelMaxCorner tsdf_layer v).coeff i =
      (voxelCoordinates tsdf_layer v).coeff i + 1 / 2 * tsdf_layer.voxel_size := by
  fin_cases i <;> rfl

theorem items_in_fresh_box (ext : External G) (s s' : VoxgraphSubmap G)
    (h : finishSubmap ext s = some s') (hf : surfaceBoxFresh s)
    (item : RegistrationPoint × ℚ) (hitem : item ∈ s'.relevant_voxels_.items) (i : Fin 3) :
    s'.surface_obb_.min.coeff i ≤
      Scalar.ofRat (item.1.position.coeff i - 1 / 2 * s'.tsdf_layer.voxel_size) ∧
    Scalar.ofRat (item.1.position.coeff i + 1 / 2 * s'.tsdf_layer.voxel_size) ≤
      s'.surface_obb_.max.coeff i := by
  have hbox := (finishSubmap_fresh ext s s' h hf).1
  have hrel := (finishSubmap_eq_some ext s s' h).2.2.2.2.2.2.2.2.1
  cases hfind : findRelevantVoxelIndices s' with
  | none => rw [hfind] at hrel; exact Option.noConfusion hrel
  | some r =>
    rw [hfind] at hrel
    simp only [Option.map_some', Option.some.injEq] at hrel
    have hall := items_of_find s' r hfind
    rw [hrel] at hall
    obtain ⟨v, hv, hreg⟩ := forall₂_exists_of_mem_right _ _ _ hall item hitem
    obtain ⟨hpos, -⟩ := registrationItem_eq_some s' v item hreg
    have hb := expandAll_default_bounds (voxelMinCorner s'.tsdf_layer)
      (voxelMaxCorner s'.tsdf_layer) _ v hv i
    rw [← freshSurfaceObb_eq, ← hbox, voxelMinCorner_coeff, voxelMaxCorner_coeff,
      ← hpos] at hb
    exact hb

/-- What holds of the cached surface box along a run. In every state reached from a newly
constructed submap by a run of operations in which `setRegistrationFilterConfig` is
called only while the cached surface box is unset (a condition that is sufficient, not
necessary), immediately after `finishSubmap` returns the volume of every voxel
of the voxel sampler lies in the cached surface box: on every axis
`min ≤ position − half voxel` and `position + half voxel ≤ max`, hence
`min ≤ position ≤ max` for a voxel size that is not negative. -/
theorem registration_voxels_in_surface_box [Group G] (ext : External G) (T_M_S : G)
    (tsdf_layer : TsdfLayer) (esdf_layer : EsdfLayer)
    (registration_filter : RegistrationFilter) (ops : List (Operation G))
    (s s' : VoxgraphSubmap G)
    (hrun : runOperations ext (newSubmap T_M_S tsdf_layer esdf_layer registration_filter)
      ops = some s)
    (hcfg : configSetOnlyWhileUnset ext
      (newSubmap T_M_S tsdf_layer esdf_layer registration_filter) ops = true)
    (hfin : finishSubmap ext s = some s') :
    ∀ item ∈ s'.relevant_voxels_.items, ∀ i : Fin 3,
      (s'.surface_obb_.min.coeff i ≤
          Scalar.ofRat (item.1.position.coeff i - 1 / 2 * s'.tsdf_layer.voxel_size) ∧
        Scalar.ofRat (item.1.position.coeff i + 1 / 2 * s'.tsdf_layer.voxel_size) ≤
          s'.surface_obb_.max.coeff i) ∧
      (0 ≤ s'.tsdf_layer.voxel_size →
        s'.surface_obb_.min.coeff i ≤ Scalar.ofRat (item.1.position.coeff i) ∧
        Scalar.ofRat (item.1.position.coeff i) ≤ s'.surface_obb_.max.coeff i) := by
  intro item hitem i
  have hf : surfaceBoxFresh s :=
    runOperations_fresh ext ops _ s hrun hcfg (Or.inl rfl)
  have hb := items_in_fresh_box ext s s' hfin hf item hitem i
  refine ⟨hb, ?_⟩
  intro hvs
  constructor
  · refine le_trans hb.1 ((Scalar.ofRat_le_ofRat _ _).2 ?_)
    linarith
  · refine le_trans ((Scalar.ofRat_le_ofRat _ _).2 ?_) hb.2
    linarith

/-- From the newly constructed `exampleSubmap`, whose filter is set once more before any
box is computed, a run with box queries and a `finishSubmap` leads to `exampleFinished`;
a further `finishSubmap` returns it again, and its voxel at `(1/2, 1/2, 3/2)` lies in the
cached box `[0,1]×[0,1]×[0,2]`. -/
theorem registration_voxels_in_surface_box_witness :
    runOperations exampleExternal
        (newSubmap 1 exampleTsdfLayer exampleEsdfLayer ⟨5, 1, false⟩)
        [Operation.setRegistrationFilterConfig ⟨1, 1, false⟩,
          Operation.getSubmapFrameSurfaceObb, Operation.finishSubmap,
          Operation.getSubmapFrameSubmapObb] = some exampleFinished ∧
    configSetOnlyWhileUnset exampleExternal
        (newSubmap 1 exampleTsdfLayer exampleEsdfLayer ⟨5, 1, false⟩)
        [Operation.setRegistrationFilterConfig ⟨1, 1, false⟩,
          Operation.getSubmapFrameSurfaceObb, Operation.finishSubmap,
          Operation.getSubmapFrameSubmapObb] = true ∧
    finishSubmap exampleExternal exampleFinished = some exampleFinished ∧
    exampleFinished.surface_obb_.min.coeff 2 ≤ Scalar.ofRat ((3 / 2 : ℚ) - 1 / 2 * 1) ∧
    Scalar.ofRat ((3 / 2 : ℚ) + 1 / 2 * 1) ≤ exampleFinished.surface_obb_.max.coeff 2 :=
  ⟨by with_unfolding_all rfl, by with_unfolding_all rfl, by with_unfolding_all rfl,
    ((registration_voxels_in_surface_box exampleExternal 1 exampleTsdfLayer
      exampleEsdfLayer ⟨5, 1, false⟩
      [Operation.setRegistrationFilterConfig ⟨1, 1, false⟩,
        Operation.getSubmapFrameSurfaceObb, Operation.finishSubmap,
        Operation.getSubmapFrameSubmapObb]
      exampleFinished exampleFinished (by with_unfolding_all rfl)
      (by with_unfolding_all rfl) (by with_unfolding_all rfl)
      (⟨⟨1 / 2, 1 / 2, 3 / 2⟩, -1 / 2, 3⟩, 3) (by decide!) 2).1)⟩

/-- C18, evaluated on the code. A submap constructed with `min_voxel_weight = 2` and
finished is `exampleTightFinished`, with voxel 4 admitted and the surface box
`[0,1]×[0,1]×[1,2]`; after `setRegistrationFilterConfig` lowered `min_voxel_weight` to 1,
`finishSubmap` returns `exampleLoosenedFinished`, whose sampler holds voxel 0 at
`(1/2, 1/2, 1/2)` while the cached surface box still starts at 1 on the third axis:
`setRegistrationFilterConfig` does not reset the cached box. -/
theorem registration_voxel_outside_stale_surface_box :
    runOperations exampleExternal
        (newSubmap 1 exampleTsdfLayer exampleEsdfLayer ⟨2, 1, false⟩)
        [Operation.finishSubmap, Operation.setRegistrationFilterConfig ⟨1, 1, false⟩] =
      some exampleLoosened ∧
    finishSubmap exampleExternal exampleLoosened = some exampleLoosenedFinished ∧
    ((⟨⟨1 / 2, 1 / 2, 1 / 2⟩, 0, 2⟩, 2) : RegistrationPoint × ℚ) ∈
      exampleLoosenedFinished.relevant_voxels_.items ∧
    exampleLoosenedFinished.surface_obb_.min.coeff 2 = Scalar.ofRat 1 ∧
    ¬ exampleLoosenedFinished.surface_obb_.min.coeff 2 ≤ Scalar.ofRat (1 / 2) :=
  ⟨by with_unfolding_all rfl, by with_unfolding_all rfl, by decide!, rfl, by decide!⟩

/-! ## The boxes a submap can hold, and the sentinel in the overlap test -/

theorem min_ofRat_finite (x : Scalar) (q : ℚ)
    (hx : x = Scalar.posInf ∨ ∃ p : ℚ, x = Scalar.ofRat p) :
    ∃ p : ℚ, min x (Scalar.ofRat q) = Scalar.ofRat p := by
  rcases min_choice x (Scalar.ofRat q) with h | h
  · rcases hx with hx | ⟨p, hp⟩
    · exfalso
      have hle : min x (Scalar.ofRat q) ≤ Scalar.ofRat q := min_le_right _ _
      rw [h, hx] at hle
      exact Scalar.posInf_not_le_ofRat q hle
    · exact ⟨p, by rw [h, hp]⟩
  · exact ⟨q, h⟩

theorem max_ofRat_finite (x : Scalar) (q : ℚ)
    (hx : x = Scalar.negInf ∨ ∃ p : ℚ, x = Scalar.ofRat p) :
    ∃ p : ℚ, max x (Scalar.ofRat q) = Scalar.ofRat p := by
  rcases max_choice x (Scalar.ofRat q) with h | h
  · rcases hx with hx | ⟨p, hp⟩
    · exfalso
      have hle : Scalar.ofRat q ≤ max x (Scalar.ofRat q) := le_max_right _ _
      rw [h, hx] at hle
      exact Scalar.ofRat_not_le_negInf q hle
    · exact ⟨p, by rw [h, hp]⟩
  · exact ⟨q, h⟩

theorem expand_allFinite (b : BoundingBox) (lo hi : Point) (h : b.unsetOrFinite) :
    (b.expand lo hi).allFinite := by
  intro i
  show (∃ q : ℚ, (cwiseMin b.min lo).coeff i = Scalar.ofRat q) ∧
    (∃ q : ℚ, (cwiseMax b.max hi).coeff i = Scalar.ofRat q)
  rw [cwiseMin_coeff, cwiseMax_coeff]
  rcases h with h | h
  · rw [h, default_min_coeff, default_max_coeff]
    exact ⟨min_ofRat_finite _ _ (Or.inl rfl), max_ofRat_finite _ _ (Or.inl rfl)⟩
  · exact ⟨min_ofRat_finite _ _ (Or.inr (h i).1), max_ofRat_finite _ _ (Or.inr (h i).2)⟩

theorem expandAll_unsetOrFinite {α : Type} (lo hi : α → Point) :
    ∀ (l : List α) (b : BoundingBox), b.unsetOrFinite →
      (b.expandAll lo hi l).unsetOrFinite := by
  intro l
  induction l with
  | nil => intro b h; exact h
  | cons a l ih =>
    intro b h
    exact ih (b.expand (lo a) (hi a)) (Or.inr (expand_allFinite b _ _ h))

theorem getSubmapFrameSurfaceObb_unsetOrFinite (s : VoxgraphSubmap G)
    (h : s.surface_obb_.unsetOrFinite) :
    (getSubmapFrameSurfaceObb s).1.unsetOrFinite := by
  unfold getSubmapFrameSurfaceObb
  split_ifs
  · show (surfaceObbScan s s.surface_obb_).unsetOrFinite
    rw [surfaceObbScan_eq]
    exact expandAll_unsetOrFinite _ _ _ _ h
  · exact h

theorem applyOperation_unsetOrFinite [Group G] (ext : External G)
    (s s' : VoxgraphSubmap G) (op : Operation G)
    (h : applyOperation ext s op = some s') (hf : s.surface_obb_.unsetOrFinite) :
    s'.surface_obb_.unsetOrFinite := by
  cases op with
  | addPoseToHistory t W =>
    simp only [applyOperation, Option.some.injEq] at h
    rw [← h]; exact hf
  | setRegistrationFilterConfig c =>
    simp only [applyOperation, Option.some.injEq] at h
    rw [← h]; exact hf
  | finishSubmap =>
    rw [(finishSubmap_eq_some ext s s' h).2.2.2.2.2.2.1]
    exact getSubmapFrameSurfaceObb_unsetOrFinite s hf
  | transformSubmap T =>
    unfold applyOperation transformSubmap at h
    rw [(finishSubmap_eq_some ext _ s' h).2.2.2.2.2.2.1]
    exact getSubmapFrameSurfaceObb_unsetOrFinite _ (Or.inl rfl)
  | getSubmapFrameSurfaceObb =>
    simp only [applyOperation, Option.some.injEq] at h
    rw [← h, getSubmapFrameSurfaceObb_snd]
    exact getSubmapFrameSurfaceObb_unsetOrFinite s hf
  | getSubmapFrameSubmapObb =>
    simp only [applyOperation, Option.some.injEq] at h
    rw [← h, getSubmapFrameSubmapObb_snd]; exact hf
  | overlapsWith other =>
    simp only [applyOperation, getWorldFrameSurfaceAabb, Option.some.injEq] at h
    rw [← h, getSubmapFrameSurfaceObb_snd]
    exact getSubmapFrameSurfaceObb_unsetOrFinite s hf

theorem runOperations_unsetOrFinite [Group G] (ext : External G)
    (ops : List (Operation G)) :
    ∀ s s' : VoxgraphSubmap G, runOperations ext s ops = some s' →
      s.surface_obb_.unsetOrFinite → s'.surface_obb_.unsetOrFinite := by
  induction ops with
  | nil =>
    intro s s' h hf
    simp only [runOperations, List.foldlM_nil, Option.pure_def, Option.some.injEq] at h
    rw [← h]; exact hf
  | cons op ops ih =>
    intro s s' h hf
    unfold runOperations at h
    rw [List.foldlM_cons] at h
    cases h1 : applyOperation ext s op with
    | none => simp [h1] at h
    | some s1 =>
      simp only [h1, Option.some_bind] at h
      exact ih s1 s' h (applyOperation_unsetOrFinite ext s s1 op h1 hf)

theorem default_not_valid : ¬ ({} : BoundingBox).valid := by
  decide

theorem overlapsAabb_default_of_finite (b : BoundingBox)
    (h : ∃ i : Fin 3, b.min.coeff i ≠ Scalar.negInf ∨ b.max.coeff i ≠ Scalar.posInf) :
    overlapsAabb {} b = false ∧ overlapsAabb b {} = false := by
  obtain ⟨i, hi⟩ := h
  have hne : b ≠ wholeSpaceBox := by
    intro e
    rw [e] at hi
    revert hi
    fin_cases i <;> decide
  have hf : overlapsAabb {} b = false := by
    cases hb : overlapsAabb {} b with
    | false => rfl
    | true => exact absurd ((overlapsAabb_default_iff b).1 hb) hne
  exact ⟨hf, by rw [overlapsAabb_comm, hf]⟩

theorem Scalar.ofRat_ne_negInf (q : ℚ) : Scalar.ofRat q ≠ Scalar.negInf := by
  intro h
  exact Scalar.ofRat_not_le_negInf q (le_of_eq h)

theorem overlapsAabb_default_of_valid (b : BoundingBox) (hu : b.unsetOrFinite)
    (hv : b.valid) : overlapsAabb {} b = false ∧ overlapsAabb b {} = false := by
  rcases hu with hu | hu
  · rw [hu] at hv
    exact absurd hv default_not_valid
  · obtain ⟨q, hq⟩ := (hu 0).1
    exact overlapsAabb_default_of_finite b ⟨0, Or.inl (by rw [hq]; exact Scalar.ofRat_ne_negInf q)⟩

/-- C20. `overlapsWith` gives the same answer with the two submaps exchanged; a submap
whose world-frame surface AABB is valid overlaps with itself, also when the second box is
read after the first query filled the cache; and the unset sentinel box overlaps with no
box that has a finite coefficient. Every surface box a submap can hold is such a box or
the sentinel: in every state reached from a newly constructed submap the box the surface
accessor returns is unset or finite on every axis, so when it is valid it does not
overlap with the sentinel; and the same holds of the world-frame surface AABB when
`getAabbFromObbAndPose` gives finite boxes for finite boxes and no valid box for the
unset box. -/
theorem overlapsWith_symmetric_reflexive [Group G] (ext : External G)
    (s other_submap : VoxgraphSubmap G) (a b : BoundingBox) :
    overlapsWith ext s other_submap = overlapsWith ext other_submap s ∧
    overlapsAabb a b = overlapsAabb b a ∧
    (a.valid → overlapsAabb a a = true) ∧
    ((getWorldFrameSurfaceAabb ext s).1.valid →
      overlapsWith ext s s = true ∧
      overlapsAabb (getWorldFrameSurfaceAabb ext s).1
        (getWorldFrameSurfaceAabb ext (getWorldFrameSurfaceAabb ext s).2).1 = true) ∧
    ((∃ i : Fin 3, b.min.coeff i ≠ Scalar.negInf ∨ b.max.coeff i ≠ Scalar.posInf) →
      overlapsAabb {} b = false ∧ overlapsAabb b {} = false) ∧
    (∀ (T_M_S : G) (tsdf_layer : TsdfLayer) (esdf_layer : EsdfLayer)
        (registration_filter : RegistrationFilter) (ops : List (Operation G))
        (r : VoxgraphSubmap G),
      runOperations ext (newSubmap T_M_S tsdf_layer esdf_layer registration_filter) ops =
        some r →
      ((getSubmapFrameSurfaceObb r).1 = {} ∨ (getSubmapFrameSurfaceObb r).1.allFinite) ∧
      ((getSubmapFrameSurfaceObb r).1.valid →
        overlapsAabb {} (getSubmapFrameSurfaceObb r).1 = false ∧
        overlapsAabb (getSubmapFrameSurfaceObb r).1 {} = false) ∧
      ((∀ obb pose, obb.allFinite → (ext.getAabbFromObbAndPose obb pose).allFinite) →
        (∀ pose, ¬ (ext.getAabbFromObbAndPose {} pose).valid) →
        (getWorldFrameSurfaceAabb ext r).1.valid →
        overlapsAabb {} (getWorldFrameSurfaceAabb ext r).1 = false ∧
        overlapsAabb (getWorldFrameSurfaceAabb ext r).1 {} = false)) := by
  refine ⟨overlapsAabb_comm _ _, overlapsAabb_comm a b, overlapsAabb_self a, ?_,
    overlapsAabb_default_of_finite b, ?_⟩
  · intro hv
    refine ⟨overlapsAabb_self _ hv, ?_⟩
    rw [getWorldFrameSurfaceAabb_twice]
    exact overlapsAabb_self _ hv
  · intro T_M_S tsdf_layer esdf_layer registration_filter ops r hrun
    have hr : r.surface_obb_.unsetOrFinite :=
      runOperations_unsetOrFinite ext ops _ r hrun (Or.inl rfl)
    have hbox := getSubmapFrameSurfaceObb_unsetOrFinite r hr
    refine ⟨hbox, overlapsAabb_default_of_valid _ hbox, ?_⟩
    intro hfin hunset hv
    have hw : (getWorldFrameSurfaceAabb ext r).1.unsetOrFinite := by
      unfold getWorldFrameSurfaceAabb at hv ⊢
      simp only [] at hv ⊢
      rcases hbox with h0 | hf
      · rw [h0] at hv
        exact absurd hv (hunset _)
      · exact Or.inr (hfin _ _ hf)
    exact overlapsAabb_default_of_valid _ hw hv

/-- The surface box `[0,1]×[0,1]×[0,2]` of the finished `exampleFinished`, reached from a
newly constructed submap, is valid and finite: it overlaps with itself and not with the
unset sentinel box, in either order. The unit box behaves the same. -/
theorem overlapsWith_symmetric_reflexive_witness :
    runOperations exampleExternal
        (newSubmap 1 exampleTsdfLayer exampleEsdfLayer ⟨1, 1, false⟩)
        [Operation.finishSubmap] = some exampleFinished ∧
    (getSubmapFrameSurfaceObb exampleFinished).1 = exampleSurfaceObb ∧
    exampleSurfaceObb.valid ∧
    overlapsAabb exampleSurfaceObb exampleSurfaceObb = true ∧
    (overlapsAabb {} (getSubmapFrameSurfaceObb exampleFinished).1 = false ∧
      overlapsAabb (getSubmapFrameSurfaceObb exampleFinished).1 {} = false) ∧
    (overlapsAabb {} unitBox = false ∧ overlapsAabb unitBox {} = false) :=
  ⟨by with_unfolding_all rfl, by decide!, by decide!,
    (overlapsWith_symmetric_reflexive exampleExternal exampleSubmap exampleSubmap
      exampleSurfaceObb unitBox).2.2.1 (by decide!),
    ((overlapsWith_symmetric_reflexive exampleExternal exampleSubmap exampleSubmap
      exampleSurfaceObb unitBox).2.2.2.2.2 1 exampleTsdfLayer exampleEsdfLayer
      ⟨1, 1, false⟩ [Operation.finishSubmap] exampleFinished
      (by with_unfolding_all rfl)).2.1 (by decide!),
    (overlapsWith_symmetric_reflexive exampleExternal exampleSubmap exampleSubmap
      exampleSurfaceObb unitBox).2.2.2.2.1 ⟨0, by decide!⟩⟩

end voxgraph
